import Mathlib

/-!
# Adafruit LIS3MDL magnetometer driver

A shallow embedding of `src/Adafruit_LIS3MDL.cpp`.

* The device, the two-wire bus and the clock are one explicit world state `Bus`:
  a byte store of registers, the trace of bus transactions and delays performed
  so far, and a schedule saying which of the coming transactions fail.
* The constants of `Adafruit_LIS3MDL.h` (register addresses, enumerator codes)
  are not part of the translated file; they are the parameter `Header`.
* The register accessor classes (`Adafruit_BusIO_Register`,
  `Adafruit_BusIO_RegisterBits`) are modelled from section 4.1 of the
  specification.
* C++ `float` values are IEEE 754 binary32 numbers: sign, 24-bit significand
  and exponent, with round-to-nearest-even arithmetic, infinities and NaN.
-/

namespace LIS3MDL

/-! ## World state -/

/-- One observable action of the driver on the outside world. The flag of a
transaction says whether the transport completed it. -/
inductive Effect where
  | read (address length : Nat) (ok : Bool)
  | write (address : Nat) (bytes : List Nat) (ok : Bool)
  | delay (ms : Nat)
  deriving DecidableEq, Repr

/-- Modelled from the spec: the bus transport (`open`, `readBytes`,
`writeBytes`, each of which may fail) together with the device registers behind
it. `regs` is the byte store of the device, `log` the trace of effects so far,
`faults` the outcome of the coming transactions (`true` = the transaction fails;
when the schedule is exhausted every transaction succeeds), `stale i` is what
byte `i` of the caller's uninitialised receive buffer holds when a burst read
fails, and `opens a` says whether a session can be opened at bus address `a`. -/
structure Bus where
  regs : Nat → Fin 256
  log : List Effect
  faults : List Bool
  stale : Nat → Nat
  opens : Nat → Bool

/-- The low byte of a number, as a register content. -/
def byte (n : Nat) : Fin 256 := ⟨n % 256, Nat.mod_lt n (by decide)⟩

/-- Modelled from the spec: `readBytes(addr, n) -> bytes|failure`, one bus read
transaction of `n` consecutive registers starting at `addr`. -/
def readBytes (s : Bus) (addr n : Nat) : Option (List Nat) × Bus :=
  let ok := !(s.faults.headD false)
  let s1 : Bus := { s with log := s.log ++ [Effect.read addr n ok], faults := s.faults.tail }
  (if ok then some ((List.range n).map fun i => (s.regs (addr + i)).val) else none, s1)

/-- Modelled from the spec: `writeBytes(addr, bytes) -> ok|failure`, one bus
write transaction storing `bytes` in consecutive registers starting at `addr`;
a failed transaction leaves the registers as they were. -/
def writeBytes (s : Bus) (addr : Nat) (bytes : List Nat) : Bool × Bus :=
  let ok := !(s.faults.headD false)
  let regs1 : Nat → Fin 256 := fun a =>
    if ok && decide (addr ≤ a) && decide (a < addr + bytes.length)
    then byte (bytes.getD (a - addr) 0) else s.regs a
  (ok, { s with regs := regs1, log := s.log ++ [Effect.write addr bytes ok],
                faults := s.faults.tail })

/-- Modelled from the spec: the blocking delay of `ms` time units (the Arduino
function `delay`, in milliseconds), recorded in the trace. -/
def delay (s : Bus) (ms : Nat) : Bus :=
  { s with log := s.log ++ [Effect.delay ms] }

/-! ## Register field accessor -/

/-- Modelled from the spec: `readRegister(address, length) -> bytes` as the
driver sees it through `Adafruit_BusIO_Register::read(buffer, len)`: the buffer
after the call (stale content when the transaction failed) and whether the
transaction succeeded. -/
def readRegister (s : Bus) (address length : Nat) : (List Nat × Bool) × Bus :=
  match readBytes s address length with
  | (some bytes, s1) => ((bytes, true), s1)
  | (none, s1) => (((List.range length).map fun i => s.stale i % 256, false), s1)

/-- Modelled from the spec: the value of a one-byte register,
`Adafruit_BusIO_Register::read()`. A failed transaction propagates to the
caller as the error value of the accessor, all ones in 32 bits (`-1`), which is
no register byte. -/
def readRegister8 (s : Bus) (address : Nat) : Nat × Bus :=
  match readBytes s address 1 with
  | (some bytes, s1) => (bytes.headD 0, s1)
  | (none, s1) => (0xFFFFFFFF, s1)

/-- Modelled from the spec: `writeRegister(address, bytes)` for a one-byte
register (the value is truncated to its low byte). -/
def writeRegister8 (s : Bus) (address value : Nat) : Bool × Bus :=
  writeBytes s address [value % 256]

/-- Modelled from the spec: the field of `width` bits at `offset` inside a
register value: "right-shifts by `offset`, masks to `width` bits". -/
def extractField (b width offset : Nat) : Nat :=
  (b >>> offset) &&& (2 ^ width - 1)

/-- Modelled from the spec: the register byte written back by a field write:
"clears the target bit span, OR's in `(value masked to width) << offset`". -/
def insertField (b width offset value : Nat) : Nat :=
  ((b &&& (0xFF ^^^ ((2 ^ width - 1) <<< offset))) |||
    ((value &&& (2 ^ width - 1)) <<< offset)) % 256

/-- Modelled from the spec: `readField(address, width, offset)`,
`Adafruit_BusIO_RegisterBits::read`. -/
def readField (s : Bus) (address width offset : Nat) : Nat × Bus :=
  let r := readRegister8 s address
  (extractField r.1 width offset, r.2)

/-- Modelled from the spec: `writeField(address, width, offset, value)`,
`Adafruit_BusIO_RegisterBits::write`: a read transaction followed by a write
transaction of the modified byte. A failed read propagates: nothing is written
and the field write fails. Otherwise the result is the outcome of the write. -/
def writeField (s : Bus) (address width offset value : Nat) : Bool × Bus :=
  match readBytes s address 1 with
  | (some bytes, s1) =>
    writeRegister8 s1 address (insertField (bytes.headD 0) width offset value)
  | (none, s1) => (false, s1)

/-! ## The type `float` -/

/-- A value of the C++ type `float`, an IEEE 754 binary32 number. A finite
value is `(-1)^negative * mantissa * 2^exponent` with `mantissa < 2^24` and
`-149 ≤ exponent ≤ 104`, normalised so that `2^23 ≤ mantissa` unless
`exponent = -149` (subnormal numbers and the two zeros). -/
inductive float where
  | finite (negative : Bool) (mantissa : Nat) (exponent : Int)
  | infinite (negative : Bool)
  | nan
  deriving DecidableEq, Repr

/-- The integer nearest to `n / d`, the even one of the two on a tie
(`d` positive). -/
def roundHalfEven (n d : Nat) : Nat :=
  if 2 * (n % d) < d then n / d
  else if d < 2 * (n % d) then n / d + 1
  else if n / d % 2 = 0 then n / d else n / d + 1

/-- Binary logarithm by repeated halving, `fuel` bounding the number of
halvings. -/
def log2Fuel : Nat → Nat → Nat
  | 0, _ => 0
  | fuel + 1, n => if 2 ≤ n then log2Fuel fuel (n / 2) + 1 else 0

/-- The position of the leading bit of a positive number. -/
def ilog2 (n : Nat) : Nat := log2Fuel n n

/-- The integer `e` with `2^e ≤ n / d < 2^(e+1)`, for positive `n` and `d`. -/
def floorLog2 (n d : Nat) : Int :=
  let e0 : Int := (ilog2 n : Int) - (ilog2 d : Int)
  if 0 ≤ e0 then (if d * 2 ^ e0.toNat ≤ n then e0 else e0 - 1)
  else (if d ≤ n * 2 ^ (-e0).toNat then e0 else e0 - 1)

/-- The binary32 number nearest to `(-1)^negative * (n / d) * 2^s` (`d`
positive), ties to the even significand: the rounding that every binary32
operation applies to its exact result. Results of magnitude `2^128` or more
after rounding become an infinity; below `2^-126` the spacing stays `2^-149`. -/
def float.round (negative : Bool) (n d : Nat) (s : Int) : float :=
  if n = 0 then float.finite negative 0 (-149) else
  let e := floorLog2 n d + s
  if 127 < e then float.infinite negative else
  let E := max e (-126)
  let k := s + 23 - E
  let M := if 0 ≤ k then roundHalfEven (n * 2 ^ k.toNat) d
           else roundHalfEven n (d * 2 ^ (-k).toNat)
  if M = 2 ^ 24 then
    (if E = 127 then float.infinite negative else float.finite negative (2 ^ 23) (E + 1 - 23))
  else float.finite negative M (E - 23)

/-- Conversion of an integer to `float`. -/
def float.ofInt (n : Int) : float := float.round (decide (n < 0)) n.natAbs 1 0

/-- Division of two `float` values. -/
def float.div : float → float → float
  | .finite s1 m1 e1, .finite s2 m2 e2 =>
    if m2 = 0 then (if m1 = 0 then .nan else .infinite (xor s1 s2))
    else float.round (xor s1 s2) m1 m2 (e1 - e2)
  | .finite s1 _ _, .infinite s2 => .finite (xor s1 s2) 0 (-149)
  | .infinite s1, .finite s2 _ _ => .infinite (xor s1 s2)
  | .infinite _, .infinite _ => .nan
  | .nan, _ => .nan
  | _, .nan => .nan

/-- Multiplication of two `float` values. -/
def float.mul : float → float → float
  | .finite s1 m1 e1, .finite s2 m2 e2 => float.round (xor s1 s2) (m1 * m2) 1 (e1 + e2)
  | .finite s1 m1 _, .infinite s2 => if m1 = 0 then .nan else .infinite (xor s1 s2)
  | .infinite s1, .finite s2 m2 _ => if m2 = 0 then .nan else .infinite (xor s1 s2)
  | .infinite s1, .infinite s2 => .infinite (xor s1 s2)
  | .nan, _ => .nan
  | _, .nan => .nan

/-- The rational number a finite `float` denotes. -/
def float.toRat : float → Option ℚ
  | .finite s m e => some ((if s then -1 else 1) * (m : ℚ) * (2 : ℚ) ^ e)
  | _ => none

/-! ## Declarations of `Adafruit_LIS3MDL.h` -/

/-- The enumeration `lis3mdl_performancemode_t`. -/
inductive lis3mdl_performancemode_t where
  | LIS3MDL_LOWPOWERMODE
  | LIS3MDL_MEDIUMMODE
  | LIS3MDL_HIGHMODE
  | LIS3MDL_ULTRAHIGHMODE
  deriving DecidableEq, Repr

/-- The enumeration `lis3mdl_dataRate_t`. -/
inductive lis3mdl_dataRate_t where
  | LIS3MDL_DATARATE_0_625_HZ
  | LIS3MDL_DATARATE_1_25_HZ
  | LIS3MDL_DATARATE_2_5_HZ
  | LIS3MDL_DATARATE_5_HZ
  | LIS3MDL_DATARATE_10_HZ
  | LIS3MDL_DATARATE_20_HZ
  | LIS3MDL_DATARATE_40_HZ
  | LIS3MDL_DATARATE_80_HZ
  | LIS3MDL_DATARATE_155_HZ
  | LIS3MDL_DATARATE_300_HZ
  | LIS3MDL_DATARATE_560_HZ
  | LIS3MDL_DATARATE_1000_HZ
  deriving DecidableEq, Repr

/-- The enumeration `lis3mdl_range_t`. -/
inductive lis3mdl_range_t where
  | LIS3MDL_RANGE_4_GAUSS
  | LIS3MDL_RANGE_8_GAUSS
  | LIS3MDL_RANGE_12_GAUSS
  | LIS3MDL_RANGE_16_GAUSS
  deriving DecidableEq, Repr

/-- The enumeration `lis3mdl_operationmode_t`. -/
inductive lis3mdl_operationmode_t where
  | LIS3MDL_CONTINUOUSMODE
  | LIS3MDL_SINGLEMODE
  | LIS3MDL_POWERDOWNMODE
  deriving DecidableEq, Repr

open lis3mdl_performancemode_t lis3mdl_dataRate_t lis3mdl_range_t lis3mdl_operationmode_t

/-- The constants the driver takes from its header and from the unified sensor
header, none of which is in the translated file: the register addresses, the
integer code of every enumerator, the magnetic-field type tag and the size of
the event record. The driver is translated relative to them. -/
structure Header where
  LIS3MDL_REG_WHO_AM_I : Nat
  LIS3MDL_REG_CTRL_REG1 : Nat
  LIS3MDL_REG_CTRL_REG2 : Nat
  LIS3MDL_REG_CTRL_REG3 : Nat
  LIS3MDL_REG_CTRL_REG4 : Nat
  LIS3MDL_REG_OUT_X_L : Nat
  performancemode : lis3mdl_performancemode_t → Nat
  dataRate : lis3mdl_dataRate_t → Nat
  range : lis3mdl_range_t → Nat
  operationmode : lis3mdl_operationmode_t → Nat
  SENSOR_TYPE_MAGNETIC_FIELD : Nat
  sizeof_sensors_event_t : Nat

/-- What the specification says of the header: every enumerator code fits the
bit field that stores it (2 bits, 4 bits for the data rate), the data rates and
the ranges have pairwise distinct codes, and the control registers 1, 2 and 4
are three different registers. -/
structure Header.WellFormed (h : Header) : Prop where
  performancemode_lt : ∀ m, h.performancemode m < 4
  dataRate_lt : ∀ r, h.dataRate r < 16
  range_lt : ∀ r, h.range r < 4
  operationmode_lt : ∀ m, h.operationmode m < 4
  dataRate_inj : ∀ r r1, h.dataRate r = h.dataRate r1 → r = r1
  range_inj : ∀ r r1, h.range r = h.range r1 → r = r1
  reg12 : h.LIS3MDL_REG_CTRL_REG1 ≠ h.LIS3MDL_REG_CTRL_REG2
  reg14 : h.LIS3MDL_REG_CTRL_REG1 ≠ h.LIS3MDL_REG_CTRL_REG4
  reg24 : h.LIS3MDL_REG_CTRL_REG2 ≠ h.LIS3MDL_REG_CTRL_REG4

/-- The member variables of the class `Adafruit_LIS3MDL`: the last raw sample,
the last scaled sample and the sensor identifier. -/
structure Adafruit_LIS3MDL where
  x : Int
  y : Int
  z : Int
  x_gauss : float
  y_gauss : float
  z_gauss : float
  _sensorID : Int

/-- The fields of `sensors_event_t` that `getEvent` sets (four `int32_t`
fields and the three `float` components of the magnetic vector); every other
field of the record is zeroed by the `memset`. -/
structure sensors_event_t where
  version : Int
  sensor_id : Int
  type : Int
  timestamp : Int
  magnetic_x : float
  magnetic_y : float
  magnetic_z : float

/-! ## The driver -/

/-- Conversion of an `int` value to `int16_t`: reduction modulo 2^16 into
the range -32768 .. 32767. -/
def int16_t (n : Int) : Int :=
  if n % 65536 < 32768 then n % 65536 else n % 65536 - 65536

/-- Conversion of an integer value to `int32_t`: reduction modulo 2^32 into
the range -2^31 .. 2^31 - 1. -/
def int32_t (n : Int) : Int :=
  if n % 4294967296 < 2147483648 then n % 4294967296 else n % 4294967296 - 4294967296

/-- `Adafruit_LIS3MDL::reset`. -/
def reset (h : Header) (s : Bus) : Bus :=
  let s1 := (writeField s h.LIS3MDL_REG_CTRL_REG2 2 2 0b11).2
  delay s1 10

/-- `Adafruit_LIS3MDL::setPerformanceMode`. -/
def setPerformanceMode (h : Header) (s : Bus) (mode : lis3mdl_performancemode_t) : Bus :=
  -- write xy
  let s1 := (writeField s h.LIS3MDL_REG_CTRL_REG1 2 5 (h.performancemode mode % 256)).2
  -- write z
  (writeField s1 h.LIS3MDL_REG_CTRL_REG4 2 2 (h.performancemode mode % 256)).2

/-- `Adafruit_LIS3MDL::getPerformanceMode`: the integer value of the returned
enumeration value. -/
def getPerformanceMode (h : Header) (s : Bus) : Nat × Bus :=
  readField s h.LIS3MDL_REG_CTRL_REG1 2 5

/-- `Adafruit_LIS3MDL::setDataRate`. -/
def setDataRate (h : Header) (s : Bus) (dataRate : lis3mdl_dataRate_t) : Bus :=
  let s1 := if h.dataRate dataRate = h.dataRate LIS3MDL_DATARATE_155_HZ
    then setPerformanceMode h s LIS3MDL_ULTRAHIGHMODE else s
  let s2 := if h.dataRate dataRate = h.dataRate LIS3MDL_DATARATE_300_HZ
    then setPerformanceMode h s1 LIS3MDL_HIGHMODE else s1
  let s3 := if h.dataRate dataRate = h.dataRate LIS3MDL_DATARATE_560_HZ
    then setPerformanceMode h s2 LIS3MDL_MEDIUMMODE else s2
  let s4 := if h.dataRate dataRate = h.dataRate LIS3MDL_DATARATE_1000_HZ
    then setPerformanceMode h s3 LIS3MDL_LOWPOWERMODE else s3
  let s5 := delay s4 10
  (writeField s5 h.LIS3MDL_REG_CTRL_REG1 4 1 (h.dataRate dataRate % 256)).2

/-- `Adafruit_LIS3MDL::getDataRate`. -/
def getDataRate (h : Header) (s : Bus) : Nat × Bus :=
  readField s h.LIS3MDL_REG_CTRL_REG1 4 1

/-- `Adafruit_LIS3MDL::setOperationMode`. -/
def setOperationMode (h : Header) (s : Bus) (mode : lis3mdl_operationmode_t) : Bus :=
  (writeField s h.LIS3MDL_REG_CTRL_REG3 2 0 (h.operationmode mode % 256)).2

/-- `Adafruit_LIS3MDL::getOperationMode`. -/
def getOperationMode (h : Header) (s : Bus) : Nat × Bus :=
  readField s h.LIS3MDL_REG_CTRL_REG3 2 0

/-- `Adafruit_LIS3MDL::setRange`. -/
def setRange (h : Header) (s : Bus) (range : lis3mdl_range_t) : Bus :=
  (writeField s h.LIS3MDL_REG_CTRL_REG2 2 5 (h.range range % 256)).2

/-- `Adafruit_LIS3MDL::getRange`. -/
def getRange (h : Header) (s : Bus) : Nat × Bus :=
  readField s h.LIS3MDL_REG_CTRL_REG2 2 5

/-- The scale selection of `read`: four `if` statements in sequence over the
value returned by `getRange`, starting from 1 (counts per gauss). -/
def scaleOf (h : Header) (range : Nat) : float :=
  let scale : float := float.ofInt 1
  let scale := if range = h.range LIS3MDL_RANGE_16_GAUSS then float.ofInt 1711 else scale
  let scale := if range = h.range LIS3MDL_RANGE_12_GAUSS then float.ofInt 2281 else scale
  let scale := if range = h.range LIS3MDL_RANGE_8_GAUSS then float.ofInt 3421 else scale
  let scale := if range = h.range LIS3MDL_RANGE_4_GAUSS then float.ofInt 6842 else scale
  scale

/-- `Adafruit_LIS3MDL::read`. -/
def read (h : Header) (d : Adafruit_LIS3MDL) (s : Bus) : Adafruit_LIS3MDL × Bus :=
  let r := readRegister s h.LIS3MDL_REG_OUT_X_L 6
  let buffer := r.1.1
  let x : Int := int16_t (buffer.getD 0 0)
  let x : Int := int16_t (Int.lor x ((buffer.getD 1 0 <<< 8 : Nat) : Int))
  let y : Int := int16_t (buffer.getD 2 0)
  let y : Int := int16_t (Int.lor y ((buffer.getD 3 0 <<< 8 : Nat) : Int))
  let z : Int := int16_t (buffer.getD 4 0)
  let z : Int := int16_t (Int.lor z ((buffer.getD 5 0 <<< 8 : Nat) : Int))
  let g := getRange h r.2
  let scale := scaleOf h g.1
  ({ d with x := x, y := y, z := z,
            x_gauss := float.div (float.ofInt x) scale,
            y_gauss := float.div (float.ofInt y) scale,
            z_gauss := float.div (float.ofInt z) scale }, g.2)

/-- `Adafruit_LIS3MDL::getEvent`; `millis` is the value the millisecond clock
returns at the call (an unsigned 32-bit number), stored in the `int32_t`
timestamp before the sample is read. -/
def getEvent (h : Header) (d : Adafruit_LIS3MDL) (s : Bus) (millis : Nat) :
    Bool × sensors_event_t × Adafruit_LIS3MDL × Bus :=
  let r := read h d s
  let d1 := r.1
  (true,
   { version := int32_t h.sizeof_sensors_event_t, sensor_id := int32_t d._sensorID,
     type := int32_t h.SENSOR_TYPE_MAGNETIC_FIELD,
     timestamp := int32_t ((millis % 4294967296 : Nat) : Int),
     magnetic_x := float.mul d1.x_gauss (float.ofInt 100),
     magnetic_y := float.mul d1.y_gauss (float.ofInt 100),
     magnetic_z := float.mul d1.z_gauss (float.ofInt 100) },
   d1, r.2)

/-- `Adafruit_LIS3MDL::begin`: the result and the world afterwards. -/
def begin (h : Header) (s : Bus) (i2c_address : Nat) : Bool × Bus :=
  if !(s.opens i2c_address) then (false, s) else
  -- Check connection
  let chip_id := readRegister8 s h.LIS3MDL_REG_WHO_AM_I
  -- make sure the right chip answers
  if chip_id.1 ≠ 0x3D then (false, chip_id.2) else
  let s1 := reset h chip_id.2
  let s2 := setPerformanceMode h s1 LIS3MDL_HIGHMODE
  let s3 := setDataRate h s2 LIS3MDL_DATARATE_80_HZ
  let s4 := setRange h s3 LIS3MDL_RANGE_4_GAUSS
  (true, s4)

/-! ## A concrete header and concrete worlds -/

/-- The register map and the field codes of the LIS3MDL data sheet. -/
def datasheet : Header where
  LIS3MDL_REG_WHO_AM_I := 0x0F
  LIS3MDL_REG_CTRL_REG1 := 0x20
  LIS3MDL_REG_CTRL_REG2 := 0x21
  LIS3MDL_REG_CTRL_REG3 := 0x22
  LIS3MDL_REG_CTRL_REG4 := 0x23
  LIS3MDL_REG_OUT_X_L := 0x28
  performancemode
    | LIS3MDL_LOWPOWERMODE => 0b00
    | LIS3MDL_MEDIUMMODE => 0b01
    | LIS3MDL_HIGHMODE => 0b10
    | LIS3MDL_ULTRAHIGHMODE => 0b11
  dataRate
    | LIS3MDL_DATARATE_0_625_HZ => 0b0000
    | LIS3MDL_DATARATE_1_25_HZ => 0b0010
    | LIS3MDL_DATARATE_2_5_HZ => 0b0100
    | LIS3MDL_DATARATE_5_HZ => 0b0110
    | LIS3MDL_DATARATE_10_HZ => 0b1000
    | LIS3MDL_DATARATE_20_HZ => 0b1010
    | LIS3MDL_DATARATE_40_HZ => 0b1100
    | LIS3MDL_DATARATE_80_HZ => 0b1110
    | LIS3MDL_DATARATE_155_HZ => 0b0001
    | LIS3MDL_DATARATE_300_HZ => 0b0011
    | LIS3MDL_DATARATE_560_HZ => 0b0101
    | LIS3MDL_DATARATE_1000_HZ => 0b0111
  range
    | LIS3MDL_RANGE_4_GAUSS => 0b00
    | LIS3MDL_RANGE_8_GAUSS => 0b01
    | LIS3MDL_RANGE_12_GAUSS => 0b10
    | LIS3MDL_RANGE_16_GAUSS => 0b11
  operationmode
    | LIS3MDL_CONTINUOUSMODE => 0b00
    | LIS3MDL_SINGLEMODE => 0b01
    | LIS3MDL_POWERDOWNMODE => 0b11
  SENSOR_TYPE_MAGNETIC_FIELD := 2
  sizeof_sensors_event_t := 36

/-- The specification's table of the performance mode that a data rate
requires ("155→ultra-high, 300→high, 560→medium, 1000→low-power"); `none` for
the rates below 155 Hz. -/
def mappedMode : lis3mdl_dataRate_t → Option lis3mdl_performancemode_t
  | LIS3MDL_DATARATE_155_HZ => some LIS3MDL_ULTRAHIGHMODE
  | LIS3MDL_DATARATE_300_HZ => some LIS3MDL_HIGHMODE
  | LIS3MDL_DATARATE_560_HZ => some LIS3MDL_MEDIUMMODE
  | LIS3MDL_DATARATE_1000_HZ => some LIS3MDL_LOWPOWERMODE
  | _ => none

/-- The specification's scale table, in counts per gauss
("±4→6842, ±8→3421, ±12→2281, ±16→1711"). -/
def tableScale : lis3mdl_range_t → Int
  | LIS3MDL_RANGE_4_GAUSS => 6842
  | LIS3MDL_RANGE_8_GAUSS => 3421
  | LIS3MDL_RANGE_12_GAUSS => 2281
  | LIS3MDL_RANGE_16_GAUSS => 1711

/-- The specification's reading of a 16-bit pattern as a two's-complement
number. -/
def s16 (n : Nat) : Int :=
  if n < 32768 then (n : Int) else (n : Int) - 65536

/-- A world in which no transaction fails: registers `regs`, an empty trace, a
device present at every address. -/
def idealBus (regs : Nat → Fin 256) : Bus :=
  { regs := regs, log := [], faults := [], stale := fun _ => 0xFF, opens := fun _ => true }

/-- A device whose identity register holds 0x3D and whose control register 2
holds 0b10101010, every other register being zero. -/
def sampleRegs : Nat → Fin 256 := fun a =>
  if a = 0x0F then 0x3D else if a = 0x21 then 0b10101010 else 0

/-- A world in which no session can be opened. -/
def absentBus (regs : Nat → Fin 256) : Bus :=
  { regs := regs, log := [], faults := [], stale := fun _ => 0xFF, opens := fun _ => false }

/-- A world whose device answers the identity read and the first read of
CTRL_REG2, and in which the next transaction, the write of the reset pattern,
fails. -/
def faultyBus : Bus :=
  { regs := sampleRegs, log := [], faults := [false, false, true],
    stale := fun _ => 0xFF, opens := fun _ => true }

/-- Output registers holding the burst BA 1A 00 00 46 E5 (raw counts 6842, 0,
-6842), every other register being zero (so the range field holds code 0). -/
def sampleBurst : Nat → Fin 256 := fun a =>
  if a = 0x28 then 0xBA else if a = 0x29 then 0x1A
  else if a = 0x2C then 0x46 else if a = 0x2D then 0xE5 else 0

/-- A driver object before its first read. -/
def sampleDevice : Adafruit_LIS3MDL :=
  { x := 0, y := 0, z := 0, x_gauss := float.ofInt 0, y_gauss := float.ofInt 0,
    z_gauss := float.ofInt 0, _sensorID := 7 }

/-- Output registers holding the burst 01 00 00 00 00 00 (raw counts 1, 0, 0),
every other register being zero (so the range field holds code 0). -/
def unitBurst : Nat → Fin 256 := fun a => if a = 0x28 then 0x01 else 0

/-- Accuracy of one scaled axis, for a raw count `raw`, a scale `scale` in
counts per gauss, the stored gauss value `g` and the reported microtesla value
`u`: `g` is a finite number within relative error `2^-24` of the exact quotient
`raw / scale`, and `u` is a finite number within relative error `2^-24` of 100
times `g`. -/
def CorrectlyRounded (raw scale : Int) (g u : float) : Prop :=
  ∃ gq uq : ℚ,
    g.toRat = some gq ∧ |gq - (raw : ℚ) / scale| ≤ |(raw : ℚ) / scale| / 2 ^ 24 ∧
    u.toRat = some uq ∧ |uq - 100 * gq| ≤ |100 * gq| / 2 ^ 24

/-! ## Bit fields -/

theorem testBit_insertField (b w o v i : Nat) :
    (insertField b w o v).testBit i =
      (decide (i < 8) &&
        (if o ≤ i ∧ i < o + w then v.testBit (i - o) else b.testBit i)) := by
  unfold insertField
  have h256 : (256 : Nat) = 2 ^ 8 := by norm_num
  have h255 : (0xFF : Nat) = 2 ^ 8 - 1 := by norm_num
  rw [h256, h255]
  simp only [Nat.testBit_mod_two_pow, Nat.testBit_or, Nat.testBit_and, Nat.testBit_xor,
    Nat.testBit_shiftLeft, Nat.testBit_two_pow_sub_one]
  by_cases h8 : i < 8 <;> by_cases ho : o ≤ i <;> by_cases hw : i < o + w <;>
    simp [h8, ho, hw]
  · have h1 : i - o < w := by omega
    simp [h1]
  · have h1 : ¬ (i - o < w) := by omega
    simp [h1]

theorem testBit_extractField (b w o i : Nat) :
    (extractField b w o).testBit i = (decide (i < w) && b.testBit (o + i)) := by
  unfold extractField
  simp [Nat.testBit_shiftRight, Bool.and_comm]

theorem insertField_lt (b w o v : Nat) : insertField b w o v < 256 := by
  unfold insertField
  exact Nat.mod_lt _ (by decide)

theorem insertField_mod (b w o v : Nat) : insertField b w o v % 256 = insertField b w o v :=
  Nat.mod_eq_of_lt (insertField_lt b w o v)

theorem testBit_byte_high (b i : Nat) (hb : b < 256) (hi : 8 ≤ i) : b.testBit i = false := by
  apply Nat.testBit_lt_two_pow
  calc b < 2 ^ 8 := by simpa using hb
    _ ≤ 2 ^ i := Nat.pow_le_pow_right (by decide) hi

/-- Reading back the field just written gives the value masked to the width. -/
theorem extractField_insertField_same (b w o v : Nat) (hfit : o + w ≤ 8) :
    extractField (insertField b w o v) w o = v % 2 ^ w := by
  apply Nat.eq_of_testBit_eq
  intro i
  rw [testBit_extractField, testBit_insertField, Nat.testBit_mod_two_pow]
  by_cases hi : i < w
  · have h1 : o + i < 8 := by omega
    have h2 : o ≤ o + i ∧ o + i < o + w := ⟨by omega, by omega⟩
    simp [hi, h1, h2]
  · simp [hi]

/-- A field that does not overlap the written span reads as before. -/
theorem extractField_insertField_disjoint (b w o v w1 o1 : Nat) (hb : b < 256)
    (hdis : o1 + w1 ≤ o ∨ o + w ≤ o1) :
    extractField (insertField b w o v) w1 o1 = extractField b w1 o1 := by
  apply Nat.eq_of_testBit_eq
  intro i
  rw [testBit_extractField, testBit_extractField, testBit_insertField]
  by_cases hi : i < w1
  · have h2 : ¬ (o ≤ o1 + i ∧ o1 + i < o + w) := by omega
    by_cases h8 : o1 + i < 8
    · simp [hi, h8, h2]
    · have := testBit_byte_high b (o1 + i) hb (by omega)
      simp [hi, h8, this]
  · simp [hi]

/-! ## Transactions on a bus without faults -/

theorem byte_val_of_lt (n : Nat) (hn : n < 256) : (byte n).val = n := by
  simp [byte, Nat.mod_eq_of_lt hn]

theorem readBytes_ok (s : Bus) (hs : s.faults = []) (a n : Nat) :
    readBytes s a n =
      (some ((List.range n).map fun i => (s.regs (a + i)).val),
       { regs := s.regs, log := s.log ++ [Effect.read a n true], faults := [],
         stale := s.stale, opens := s.opens }) := by
  simp [readBytes, hs]

theorem readRegister8_ok (s : Bus) (hs : s.faults = []) (a : Nat) :
    readRegister8 s a =
      ((s.regs a).val,
       { regs := s.regs, log := s.log ++ [Effect.read a 1 true], faults := [],
         stale := s.stale, opens := s.opens }) := by
  have h1 : List.range 1 = [0] := by decide
  simp [readRegister8, readBytes_ok s hs, h1]

theorem readField_ok (s : Bus) (hs : s.faults = []) (a w o : Nat) :
    readField s a w o =
      (extractField (s.regs a).val w o,
       { regs := s.regs, log := s.log ++ [Effect.read a 1 true], faults := [],
         stale := s.stale, opens := s.opens }) := by
  simp [readField, readRegister8_ok s hs]

theorem writeField_ok (s : Bus) (hs : s.faults = []) (a w o v : Nat) :
    writeField s a w o v =
      (true,
       { regs := Function.update s.regs a (byte (insertField (s.regs a).val w o v)),
         log := s.log ++ [Effect.read a 1 true,
                          Effect.write a [insertField (s.regs a).val w o v] true],
         faults := [], stale := s.stale, opens := s.opens }) := by
  have h1 : List.range 1 = [0] := by decide
  simp only [writeField, readBytes_ok s hs, h1, List.map_cons, List.map_nil, List.headD_cons,
    Nat.add_zero, writeRegister8, writeBytes, insertField_mod]
  simp only [List.headD_nil, Bool.not_false, Bool.true_and, List.tail_nil, List.length_singleton,
    List.append_assoc, List.singleton_append, Prod.mk.injEq, Bus.mk.injEq, and_true, true_and]
  funext r
  by_cases hr : r = a
  · subst hr
    simp
  · have h1 : ¬ (a ≤ r ∧ r < a + 1) := by omega
    simp [Function.update_noteq hr, h1]

theorem byte_insertField_val (b w o v : Nat) :
    (byte (insertField b w o v)).val = insertField b w o v :=
  byte_val_of_lt _ (insertField_lt b w o v)

theorem Header.WellFormed.dataRate_eq_iff {h : Header} (hwf : h.WellFormed)
    (r r1 : lis3mdl_dataRate_t) : h.dataRate r = h.dataRate r1 ↔ r = r1 :=
  ⟨hwf.dataRate_inj r r1, fun e => by rw [e]⟩

theorem Header.WellFormed.range_eq_iff {h : Header} (hwf : h.WellFormed)
    (r r1 : lis3mdl_range_t) : h.range r = h.range r1 ↔ r = r1 :=
  ⟨hwf.range_inj r r1, fun e => by rw [e]⟩

theorem writeField_faults (s : Bus) (hs : s.faults = []) (a w o v : Nat) :
    (writeField s a w o v).2.faults = [] := by
  rw [writeField_ok s hs]

/-- On a bus without faults a field write changes no bit outside its span. -/
theorem writeField_testBit_outside (s : Bus) (hs : s.faults = []) (a w o v a1 i : Nat)
    (hout : ¬ (a1 = a ∧ o ≤ i ∧ i < o + w)) :
    ((writeField s a w o v).2.regs a1).val.testBit i = (s.regs a1).val.testBit i := by
  rw [writeField_ok s hs]
  by_cases ha : a1 = a
  · subst ha
    have h2 : ¬ (o ≤ i ∧ i < o + w) := fun hc => hout ⟨rfl, hc⟩
    simp only [Function.update_same, byte_insertField_val, testBit_insertField, if_neg h2]
    by_cases h8 : i < 8
    · simp [h8]
    · simp [h8, testBit_byte_high _ i (s.regs a1).isLt (by omega)]
  · simp [Function.update_noteq ha]

theorem mod_256_of_lt_4 (n : Nat) (hn : n < 4) : n % 256 = n := by omega

theorem mod_256_of_lt_16 (n : Nat) (hn : n < 16) : n % 256 = n := by omega

theorem readRegister8_state (s : Bus) (a : Nat) :
    (readRegister8 s a).2 =
      { regs := s.regs, log := s.log ++ [Effect.read a 1 (!(s.faults.headD false))],
        faults := s.faults.tail, stale := s.stale, opens := s.opens } := by
  unfold readRegister8 readBytes
  cases hf : s.faults.headD false <;> simp [hf]

theorem datasheet_wellFormed : datasheet.WellFormed where
  performancemode_lt := by intro m; cases m <;> decide
  dataRate_lt := by intro r; cases r <;> decide
  range_lt := by intro r; cases r <;> decide
  operationmode_lt := by intro m; cases m <;> decide
  dataRate_inj := by intro r r1; cases r <;> cases r1 <;> decide
  range_inj := by intro r r1; cases r <;> cases r1 <;> decide
  reg12 := by decide
  reg14 := by decide
  reg24 := by decide

theorem readRegister_ok (s : Bus) (hs : s.faults = []) (a n : Nat) :
    readRegister s a n =
      (((List.range n).map fun i => (s.regs (a + i)).val, true),
       { regs := s.regs, log := s.log ++ [Effect.read a n true], faults := [],
         stale := s.stale, opens := s.opens }) := by
  simp [readRegister, readBytes_ok s hs]

theorem int16_t_eq_s16 (n : Nat) (hn : n < 65536) : int16_t (n : Int) = s16 n := by
  unfold int16_t s16
  have h1 : (n : Int) % 65536 = n := by omega
  rw [h1]
  by_cases h : n < 32768
  · have h2 : (n : Int) < 32768 := by omega
    simp [h, h2]
  · have h2 : ¬ ((n : Int) < 32768) := by omega
    simp [h, h2]

/-- The two assignments that build one axis value from its low and high byte. -/
theorem assemble_eq_s16 (b0 b1 : Nat) (h0 : b0 < 256) (h1 : b1 < 256) :
    int16_t (Int.lor (int16_t (b0 : Int)) ((b1 <<< 8 : Nat) : Int)) =
      s16 (b0 + 256 * b1) := by
  have e0 : int16_t (b0 : Int) = (b0 : Int) := by
    rw [int16_t_eq_s16 b0 (by omega)]
    unfold s16
    simp [show b0 < 32768 by omega]
  have e1 : Int.lor (b0 : Int) ((b1 <<< 8 : Nat) : Int) = ((b0 ||| b1 <<< 8 : Nat) : Int) := rfl
  have e2 : b0 ||| b1 <<< 8 = b0 + 256 * b1 := by
    have := Nat.mul_add_lt_is_or (i := 8) (b := b0) (by simpa using h0) b1
    rw [Nat.shiftLeft_eq, Nat.lor_comm, Nat.mul_comm b1, ← this]
    norm_num
    omega
  rw [e0, e1, e2]
  exact int16_t_eq_s16 _ (by omega)

theorem s16_bounds (n : Nat) (hn : n < 65536) : -32768 ≤ s16 n ∧ s16 n ≤ 32767 := by
  unfold s16
  by_cases h : n < 32768
  · simp only [h, if_true]
    omega
  · simp only [h, if_false]
    omega

theorem log2Fuel_spec (fuel : Nat) : ∀ n, n ≤ fuel → 0 < n →
    2 ^ log2Fuel fuel n ≤ n ∧ n < 2 ^ (log2Fuel fuel n + 1) := by
  induction fuel with
  | zero => intro n h0 hn; omega
  | succ f ih =>
    intro n hle hn
    unfold log2Fuel
    by_cases h2 : 2 ≤ n
    · have hih := ih (n / 2) (by omega) (by omega)
      simp only [h2, if_true]
      rw [pow_succ, pow_succ]
      rw [pow_succ] at hih
      omega
    · simp only [h2, if_false]
      have : n = 1 := by omega
      subst this
      decide

theorem ilog2_spec (n : Nat) (hn : 0 < n) : 2 ^ ilog2 n ≤ n ∧ n < 2 ^ (ilog2 n + 1) :=
  log2Fuel_spec n n (Nat.le_refl n) hn

theorem roundHalfEven_spec (n d : Nat) (hd : 0 < d) :
    2 * (roundHalfEven n d * d) ≤ 2 * n + d ∧ 2 * n ≤ 2 * (roundHalfEven n d * d) + d := by
  have hdm := Nat.div_add_mod n d
  have hlt := Nat.mod_lt n hd
  have hmul : n / d * d = d * (n / d) := Nat.mul_comm _ _
  unfold roundHalfEven
  split_ifs <;> (try simp only [Nat.add_mul, Nat.one_mul]) <;> omega

theorem roundHalfEven_cast (n d : Nat) (hd : 0 < d) :
    |((roundHalfEven n d : Nat) : ℚ) - (n : ℚ) / d| ≤ 1 / 2 := by
  obtain ⟨h1, h2⟩ := roundHalfEven_spec n d hd
  have hdq : (0 : ℚ) < d := by exact_mod_cast hd
  have h1q : (2 : ℚ) * (roundHalfEven n d * d) ≤ 2 * n + d := by exact_mod_cast h1
  have h2q : (2 : ℚ) * n ≤ 2 * (roundHalfEven n d * d) + d := by exact_mod_cast h2
  have hx : (n : ℚ) / d * d = n := div_mul_cancel₀ _ (ne_of_gt hdq)
  rw [abs_le]
  constructor
  · have h3 : ((n : ℚ) / d - 1 / 2) * d ≤ (roundHalfEven n d : ℚ) * d := by
      rw [sub_mul, hx]
      linarith
    have := le_of_mul_le_mul_right h3 hdq
    linarith
  · have h3 : (roundHalfEven n d : ℚ) * d ≤ ((n : ℚ) / d + 1 / 2) * d := by
      rw [add_mul, hx]
      linarith
    have := le_of_mul_le_mul_right h3 hdq
    linarith

theorem roundHalfEven_one (n : Nat) : roundHalfEven n 1 = n := by
  simp [roundHalfEven, Nat.mod_one]

theorem two_zpow_pos (e : Int) : (0 : ℚ) < (2 : ℚ) ^ e := zpow_pos (by norm_num) e

theorem two_zpow_add (a b : Int) : (2 : ℚ) ^ (a + b) = (2 : ℚ) ^ a * (2 : ℚ) ^ b :=
  zpow_add₀ (by norm_num) a b

theorem check_nonneg_iff (n d : Nat) (e : Int) (he : 0 ≤ e) :
    d * 2 ^ e.toNat ≤ n ↔ (d : ℚ) * (2 : ℚ) ^ e ≤ n := by
  have h1 : (2 : ℚ) ^ e = ((2 ^ e.toNat : Nat) : ℚ) := by
    conv_lhs => rw [← Int.toNat_of_nonneg he]
    rw [zpow_natCast]
    push_cast
    rfl
  rw [h1]
  exact_mod_cast Iff.rfl

theorem check_neg_iff (n d : Nat) (e : Int) (he : ¬ 0 ≤ e) :
    d ≤ n * 2 ^ (-e).toNat ↔ (d : ℚ) * (2 : ℚ) ^ e ≤ n := by
  have hk : ((-e).toNat : Int) = -e := Int.toNat_of_nonneg (by omega)
  have h1 : (2 : ℚ) ^ e = (((2 ^ (-e).toNat : Nat) : ℚ))⁻¹ := by
    have : e = -((-e).toNat : Int) := by omega
    conv_lhs => rw [this]
    rw [zpow_neg, zpow_natCast]
    push_cast
    rfl
  have hpos : (0 : ℚ) < ((2 ^ (-e).toNat : Nat) : ℚ) := by positivity
  rw [h1, ← div_eq_mul_inv, div_le_iff₀ hpos]
  exact_mod_cast Iff.rfl

theorem floorLog2_spec (n d : Nat) (hn : 0 < n) (hd : 0 < d) :
    (d : ℚ) * (2 : ℚ) ^ floorLog2 n d ≤ n ∧ (n : ℚ) < d * (2 : ℚ) ^ (floorLog2 n d + 1) := by
  obtain ⟨ha1, ha2⟩ := ilog2_spec n hn
  obtain ⟨hb1, hb2⟩ := ilog2_spec d hd
  have ha1q : (2 : ℚ) ^ (ilog2 n : Int) ≤ n := by
    rw [zpow_natCast]
    exact_mod_cast ha1
  have ha2q : (n : ℚ) < (2 : ℚ) ^ ((ilog2 n : Int) + 1) := by
    have h : (n : ℚ) < 2 ^ (ilog2 n + 1) := by exact_mod_cast ha2
    have e : ((ilog2 n : Int) + 1) = ((ilog2 n + 1 : Nat) : Int) := by push_cast; ring
    rw [e, zpow_natCast]
    exact h
  have hb1q : (2 : ℚ) ^ (ilog2 d : Int) ≤ d := by
    rw [zpow_natCast]
    exact_mod_cast hb1
  have hb2q : (d : ℚ) < (2 : ℚ) ^ ((ilog2 d : Int) + 1) := by
    have h : (d : ℚ) < 2 ^ (ilog2 d + 1) := by exact_mod_cast hb2
    have e : ((ilog2 d : Int) + 1) = ((ilog2 d + 1 : Nat) : Int) := by push_cast; ring
    rw [e, zpow_natCast]
    exact h
  -- bounds that hold whatever the comparison says
  have hL : (d : ℚ) * (2 : ℚ) ^ ((ilog2 n : Int) - (ilog2 d : Int) - 1) ≤ n := by
    have h1 : (d : ℚ) * (2 : ℚ) ^ ((ilog2 n : Int) - (ilog2 d : Int) - 1) ≤
        (2 : ℚ) ^ ((ilog2 d : Int) + 1) * (2 : ℚ) ^ ((ilog2 n : Int) - (ilog2 d : Int) - 1) :=
      mul_le_mul_of_nonneg_right (le_of_lt hb2q) (le_of_lt (two_zpow_pos _))
    rw [← two_zpow_add] at h1
    have e : (ilog2 d : Int) + 1 + ((ilog2 n : Int) - (ilog2 d : Int) - 1) = (ilog2 n : Int) := by
      ring
    rw [e] at h1
    exact le_trans h1 ha1q
  have hU : (n : ℚ) < d * (2 : ℚ) ^ ((ilog2 n : Int) - (ilog2 d : Int) + 1) := by
    have h1 : (2 : ℚ) ^ (ilog2 d : Int) * (2 : ℚ) ^ ((ilog2 n : Int) - (ilog2 d : Int) + 1) ≤
        (d : ℚ) * (2 : ℚ) ^ ((ilog2 n : Int) - (ilog2 d : Int) + 1) :=
      mul_le_mul_of_nonneg_right hb1q (le_of_lt (two_zpow_pos _))
    rw [← two_zpow_add] at h1
    have e : (ilog2 d : Int) + ((ilog2 n : Int) - (ilog2 d : Int) + 1) = (ilog2 n : Int) + 1 := by
      ring
    rw [e] at h1
    exact lt_of_lt_of_le ha2q h1
  simp only [floorLog2]
  split_ifs with h0 hc hc
  · exact ⟨(check_nonneg_iff n d _ h0).1 hc, hU⟩
  · refine ⟨hL, ?_⟩
    have := mt (check_nonneg_iff n d _ h0).2 hc
    rw [sub_add_cancel]
    exact lt_of_not_le this
  · exact ⟨(check_neg_iff n d _ h0).1 hc, hU⟩
  · refine ⟨hL, ?_⟩
    have := mt (check_neg_iff n d _ h0).2 hc
    rw [sub_add_cancel]
    exact lt_of_not_le this

theorem two_zpow_lt_iff (a b : Int) : (2 : ℚ) ^ a < (2 : ℚ) ^ b ↔ a < b :=
  (zpow_right_strictMono₀ (by norm_num : (1 : ℚ) < 2)).lt_iff_lt

/-- The significand chosen by `float.round` is within one half of the scaled
exact value. -/
theorem round_mantissa (n d : Nat) (k : Int) (hd : 0 < d) :
    |(((if 0 ≤ k then roundHalfEven (n * 2 ^ k.toNat) d
        else roundHalfEven n (d * 2 ^ (-k).toNat) : Nat)) : ℚ) - (n : ℚ) / d * (2 : ℚ) ^ k|
      ≤ 1 / 2 := by
  have hdq : (0 : ℚ) < d := by exact_mod_cast hd
  by_cases hk : 0 ≤ k
  · simp only [hk, if_true]
    have h := roundHalfEven_cast (n * 2 ^ k.toNat) d hd
    have e : (((n * 2 ^ k.toNat : Nat)) : ℚ) / d = (n : ℚ) / d * (2 : ℚ) ^ k := by
      conv_rhs => rw [← Int.toNat_of_nonneg hk]
      rw [zpow_natCast]
      push_cast
      ring
    rw [e] at h
    exact h
  · simp only [hk, if_false]
    have hpos : 0 < d * 2 ^ (-k).toNat := Nat.mul_pos hd (by positivity)
    have h := roundHalfEven_cast n (d * 2 ^ (-k).toNat) hpos
    have e : (n : ℚ) / ((d * 2 ^ (-k).toNat : Nat) : ℚ) = (n : ℚ) / d * (2 : ℚ) ^ k := by
      have hk2 : k = -((-k).toNat : Int) := by omega
      conv_rhs => rw [hk2]
      rw [zpow_neg, zpow_natCast]
      push_cast
      field_simp
    rw [e] at h
    exact h

/-- Correct rounding in the normal range: a positive exact value between
`2^-126` and `2^127` is rounded to a finite number with the given sign, a
positive significand and a relative error of at most `2^-24`. -/
theorem float.round_spec (negative : Bool) (n d : Nat) (s : Int) (hn : 0 < n) (hd : 0 < d)
    (hlo : (2 : ℚ) ^ (-126 : Int) ≤ (n : ℚ) / d * (2 : ℚ) ^ s)
    (hhi : (n : ℚ) / d * (2 : ℚ) ^ s < (2 : ℚ) ^ (127 : Int)) :
    ∃ M X, float.round negative n d s = float.finite negative M X ∧ 0 < M ∧
      |(M : ℚ) * (2 : ℚ) ^ X - (n : ℚ) / d * (2 : ℚ) ^ s| ≤
        (n : ℚ) / d * (2 : ℚ) ^ s / 2 ^ 24 := by
  have hdq : (0 : ℚ) < d := by exact_mod_cast hd
  obtain ⟨hf1, hf2⟩ := floorLog2_spec n d hn hd
  -- the exponent brackets the exact value
  have hv1 : (2 : ℚ) ^ (floorLog2 n d + s) ≤ (n : ℚ) / d * (2 : ℚ) ^ s := by
    rw [two_zpow_add]
    apply mul_le_mul_of_nonneg_right _ (le_of_lt (two_zpow_pos s))
    rw [le_div_iff₀ hdq, mul_comm]
    exact hf1
  have hv2 : (n : ℚ) / d * (2 : ℚ) ^ s < (2 : ℚ) ^ (floorLog2 n d + s + 1) := by
    have e : floorLog2 n d + s + 1 = (floorLog2 n d + 1) + s := by ring
    rw [e, two_zpow_add]
    apply mul_lt_mul_of_pos_right _ (two_zpow_pos s)
    rw [div_lt_iff₀ hdq, mul_comm]
    exact hf2
  have he1 : -126 ≤ floorLog2 n d + s := by
    have := (two_zpow_lt_iff _ _).1 (lt_of_le_of_lt hlo hv2)
    omega
  have he2 : floorLog2 n d + s ≤ 126 := by
    have := (two_zpow_lt_iff _ _).1 (lt_of_le_of_lt hv1 hhi)
    omega
  have hmax : max (floorLog2 n d + s) (-126) = floorLog2 n d + s := max_eq_left he1
  have hM := round_mantissa n d (s + 23 - (floorLog2 n d + s)) hd
  -- the scaled exact value is at least 2^23
  have hw : (n : ℚ) / d * (2 : ℚ) ^ (s + 23 - (floorLog2 n d + s)) =
      (n : ℚ) / d * (2 : ℚ) ^ s * (2 : ℚ) ^ (23 - (floorLog2 n d + s)) := by
    have e : s + 23 - (floorLog2 n d + s) = s + (23 - (floorLog2 n d + s)) := by ring
    rw [e, two_zpow_add, mul_assoc]
  rw [hw] at hM
  have hw23 : (2 : ℚ) ^ (23 : Int) ≤
      (n : ℚ) / d * (2 : ℚ) ^ s * (2 : ℚ) ^ (23 - (floorLog2 n d + s)) := by
    have h1 := mul_le_mul_of_nonneg_right hv1
      (le_of_lt (two_zpow_pos (23 - (floorLog2 n d + s))))
    rw [← two_zpow_add] at h1
    have e : floorLog2 n d + s + (23 - (floorLog2 n d + s)) = 23 := by ring
    rw [e] at h1
    exact h1
  have h23 : (2 : ℚ) ^ (23 : Int) = 8388608 := by norm_num
  rw [h23] at hw23
  -- error of the scaled significand carried back to the value
  have hback : ∀ M : Nat,
      |(M : ℚ) - (n : ℚ) / d * (2 : ℚ) ^ s * (2 : ℚ) ^ (23 - (floorLog2 n d + s))| ≤ 1 / 2 →
      |(M : ℚ) * (2 : ℚ) ^ (floorLog2 n d + s - 23) - (n : ℚ) / d * (2 : ℚ) ^ s| ≤
        (n : ℚ) / d * (2 : ℚ) ^ s / 2 ^ 24 := by
    intro M hMle
    have hq := two_zpow_pos (floorLog2 n d + s - 23)
    have e1 : (2 : ℚ) ^ (23 - (floorLog2 n d + s)) * (2 : ℚ) ^ (floorLog2 n d + s - 23) = 1 := by
      rw [← two_zpow_add]
      have : 23 - (floorLog2 n d + s) + (floorLog2 n d + s - 23) = 0 := by ring
      rw [this, zpow_zero]
    have e2 : (M : ℚ) * (2 : ℚ) ^ (floorLog2 n d + s - 23) - (n : ℚ) / d * (2 : ℚ) ^ s =
        ((M : ℚ) - (n : ℚ) / d * (2 : ℚ) ^ s * (2 : ℚ) ^ (23 - (floorLog2 n d + s))) *
          (2 : ℚ) ^ (floorLog2 n d + s - 23) := by
      rw [sub_mul, mul_assoc ((n : ℚ) / d * (2 : ℚ) ^ s), e1, mul_one]
    rw [e2, abs_mul, abs_of_pos hq]
    have e3 : (2 : ℚ) ^ (floorLog2 n d + s - 23) = (2 : ℚ) ^ (floorLog2 n d + s) / 2 ^ 23 := by
      rw [sub_eq_add_neg, two_zpow_add]
      norm_num
      ring
    calc |(M : ℚ) - (n : ℚ) / d * (2 : ℚ) ^ s * (2 : ℚ) ^ (23 - (floorLog2 n d + s))| *
          (2 : ℚ) ^ (floorLog2 n d + s - 23)
        ≤ 1 / 2 * (2 : ℚ) ^ (floorLog2 n d + s - 23) :=
          mul_le_mul_of_nonneg_right hMle (le_of_lt hq)
      _ = (2 : ℚ) ^ (floorLog2 n d + s) / 2 ^ 24 := by rw [e3]; ring
      _ ≤ (n : ℚ) / d * (2 : ℚ) ^ s / 2 ^ 24 :=
          div_le_div_of_nonneg_right hv1 (by positivity)
  unfold float.round
  have hn0 : n ≠ 0 := by omega
  have hnot : ¬ (127 < floorLog2 n d + s) := by omega
  have hE : ¬ (floorLog2 n d + s = 127) := by omega
  simp only [hn0, if_false, hnot, hmax, hE]
  generalize (if 0 ≤ s + 23 - (floorLog2 n d + s) then
      roundHalfEven (n * 2 ^ (s + 23 - (floorLog2 n d + s)).toNat) d
    else roundHalfEven n (d * 2 ^ (-(s + 23 - (floorLog2 n d + s))).toNat)) = M0 at hM ⊢
  by_cases h24 : M0 = 2 ^ 24
  · simp only [h24, if_true]
    refine ⟨2 ^ 23, floorLog2 n d + s + 1 - 23, rfl, by positivity, ?_⟩
    have := hback _ (by rw [h24] at hM; exact hM)
    have e : ((2 ^ 23 : Nat) : ℚ) * (2 : ℚ) ^ (floorLog2 n d + s + 1 - 23) =
        ((2 ^ 24 : Nat) : ℚ) * (2 : ℚ) ^ (floorLog2 n d + s - 23) := by
      have : floorLog2 n d + s + 1 - 23 = 1 + (floorLog2 n d + s - 23) := by ring
      rw [this, two_zpow_add]
      norm_num
      ring
    rw [e]
    exact this
  · simp only [h24, if_false]
    refine ⟨M0, floorLog2 n d + s - 23, rfl, ?_, hback _ hM⟩
    have := (abs_le.1 hM).1
    have hpos : (0 : ℚ) < (M0 : ℚ) := by linarith
    exact_mod_cast hpos

theorem floorLog2_one (a : Nat) (ha : 0 < a) : floorLog2 a 1 = (ilog2 a : Int) := by
  have h1 : ilog2 1 = 0 := by decide
  have hs := (ilog2_spec a ha).1
  simp only [floorLog2, h1, Nat.cast_zero, sub_zero, Int.toNat_ofNat, one_mul]
  have h0 : (0 : Int) ≤ (ilog2 a : Int) := Int.natCast_nonneg _
  simp [h0, hs]

/-- Conversion of a nonzero integer of magnitude below `2^24` to `float` is
exact. -/
theorem float.ofInt_exact (n : Int) (hn : n ≠ 0) (hlt : n.natAbs < 2 ^ 24) :
    ∃ M X, float.ofInt n = float.finite (decide (n < 0)) M X ∧ 0 < M ∧
      (M : ℚ) * (2 : ℚ) ^ X = (n.natAbs : ℚ) := by
  have ha : 0 < n.natAbs := Int.natAbs_pos.2 hn
  obtain ⟨hl1, hl2⟩ := ilog2_spec n.natAbs ha
  have hl : ilog2 n.natAbs < 24 := by
    have := lt_of_le_of_lt hl1 hlt
    exact (Nat.pow_lt_pow_iff_right (by decide)).1 this
  have hk : (0 : Int) ≤ 0 + 23 - ((ilog2 n.natAbs : Int) + 0) := by omega
  have hkn : (0 + 23 - ((ilog2 n.natAbs : Int) + 0)).toNat = 23 - ilog2 n.natAbs := by omega
  have hmax : max ((ilog2 n.natAbs : Int) + 0) (-126) = (ilog2 n.natAbs : Int) + 0 :=
    max_eq_left (by omega)
  have hM : n.natAbs * 2 ^ (23 - ilog2 n.natAbs) < 2 ^ 24 := by
    calc n.natAbs * 2 ^ (23 - ilog2 n.natAbs)
        < 2 ^ (ilog2 n.natAbs + 1) * 2 ^ (23 - ilog2 n.natAbs) :=
          Nat.mul_lt_mul_of_pos_right hl2 (by positivity)
      _ = 2 ^ 24 := by
          rw [← pow_add]
          congr 1
          omega
  refine ⟨n.natAbs * 2 ^ (23 - ilog2 n.natAbs), (ilog2 n.natAbs : Int) + 0 - 23, ?_,
    Nat.mul_pos ha (by positivity), ?_⟩
  · unfold float.ofInt float.round
    have hn0 : n.natAbs ≠ 0 := by omega
    have hnot : ¬ (127 < (ilog2 n.natAbs : Int) + 0) := by omega
    simp only [hn0, if_false, floorLog2_one _ ha, hnot, hmax, hk, if_true, hkn,
      roundHalfEven_one, ne_of_lt hM]
  · push_cast
    have e : ((ilog2 n.natAbs : Int) + 0 - 23) = -((23 - ilog2 n.natAbs : Nat) : Int) := by omega
    rw [e, zpow_neg, zpow_natCast, mul_assoc, mul_inv_cancel₀ (by positivity), mul_one]

theorem float.ofInt_zero : float.ofInt 0 = float.finite false 0 (-149) := by decide

theorem float.ofInt_hundred : float.ofInt 100 = float.finite false 13107200 (-17) := by decide

/-- The quotient of two converted integers of magnitude below `2^24` (the
divisor positive, the dividend nonzero) is finite, has the sign of the dividend
and is within relative error `2^-24` of the exact quotient. -/
theorem float.div_ofInt (x c : Int) (hx : x ≠ 0) (hxl : x.natAbs < 2 ^ 24) (hc : 0 < c)
    (hcl : c.natAbs < 2 ^ 24) :
    ∃ M X, float.div (float.ofInt x) (float.ofInt c) = float.finite (decide (x < 0)) M X ∧
      0 < M ∧
      |(M : ℚ) * (2 : ℚ) ^ X - (x.natAbs : ℚ) / (c.natAbs : ℚ)| ≤
        (x.natAbs : ℚ) / (c.natAbs : ℚ) / 2 ^ 24 := by
  obtain ⟨mx, ex, hxe, hmx, hvx⟩ := float.ofInt_exact x hx hxl
  obtain ⟨mc, ec, hce, hmc, hvc⟩ := float.ofInt_exact c (by omega) hcl
  have hcneg : decide (c < 0) = false := by
    rw [decide_eq_false_iff_not]
    omega
  rw [hcneg] at hce
  have hmc0 : mc ≠ 0 := by omega
  have hA1 : (1 : ℚ) ≤ (x.natAbs : ℚ) := by
    have : 1 ≤ x.natAbs := Int.natAbs_pos.2 hx
    exact_mod_cast this
  have hA2 : (x.natAbs : ℚ) < 16777216 := by exact_mod_cast hxl
  have hC1 : (1 : ℚ) ≤ (c.natAbs : ℚ) := by
    have : 1 ≤ c.natAbs := Int.natAbs_pos.2 (by omega)
    exact_mod_cast this
  have hC2 : (c.natAbs : ℚ) < 16777216 := by exact_mod_cast hcl
  have hCpos : (0 : ℚ) < (c.natAbs : ℚ) := by linarith
  have hmcq : (0 : ℚ) < (mc : ℚ) := by exact_mod_cast hmc
  have hv : (mx : ℚ) / mc * (2 : ℚ) ^ (ex - ec) = (x.natAbs : ℚ) / (c.natAbs : ℚ) := by
    rw [← hvx, ← hvc, zpow_sub₀ (by norm_num : (2 : ℚ) ≠ 0)]
    have := two_zpow_pos ec
    field_simp
  have hlo : (2 : ℚ) ^ (-126 : Int) ≤ (mx : ℚ) / mc * (2 : ℚ) ^ (ex - ec) := by
    rw [hv, le_div_iff₀ hCpos]
    have h126 : (2 : ℚ) ^ (-126 : Int) ≤ 1 / 16777216 := by norm_num
    calc (2 : ℚ) ^ (-126 : Int) * (c.natAbs : ℚ)
        ≤ 1 / 16777216 * (c.natAbs : ℚ) := mul_le_mul_of_nonneg_right h126 (le_of_lt hCpos)
      _ ≤ 1 := by linarith
      _ ≤ (x.natAbs : ℚ) := hA1
  have hhi : (mx : ℚ) / mc * (2 : ℚ) ^ (ex - ec) < (2 : ℚ) ^ (127 : Int) := by
    rw [hv, div_lt_iff₀ hCpos]
    have h127 : (16777216 : ℚ) ≤ (2 : ℚ) ^ (127 : Int) := by norm_num
    calc (x.natAbs : ℚ) < 16777216 := hA2
      _ ≤ (2 : ℚ) ^ (127 : Int) := h127
      _ = (2 : ℚ) ^ (127 : Int) * 1 := (mul_one _).symm
      _ ≤ (2 : ℚ) ^ (127 : Int) * (c.natAbs : ℚ) :=
          mul_le_mul_of_nonneg_left hC1 (le_of_lt (two_zpow_pos 127))
  obtain ⟨M, X, hr, hM, hb⟩ := float.round_spec (decide (x < 0)) mx mc (ex - ec) hmx hmc hlo hhi
  rw [hv] at hb
  refine ⟨M, X, ?_, hM, hb⟩
  rw [hxe, hce]
  simp only [float.div, hmc0, if_false, Bool.xor_false]
  exact hr

/-- Multiplying a positive-significand finite `float` by the converted integer
100 gives, in the normal range, a finite number of the same sign within
relative error `2^-24` of the exact product. -/
theorem float.mul_hundred (negative : Bool) (M : Nat) (X : Int) (hM : 0 < M)
    (hlo : (2 : ℚ) ^ (-126 : Int) ≤ 100 * ((M : ℚ) * (2 : ℚ) ^ X))
    (hhi : 100 * ((M : ℚ) * (2 : ℚ) ^ X) < (2 : ℚ) ^ (127 : Int)) :
    ∃ M1 X1, float.mul (float.finite negative M X) (float.ofInt 100) =
        float.finite negative M1 X1 ∧
      |(M1 : ℚ) * (2 : ℚ) ^ X1 - 100 * ((M : ℚ) * (2 : ℚ) ^ X)| ≤
        100 * ((M : ℚ) * (2 : ℚ) ^ X) / 2 ^ 24 := by
  have hv : ((M * 13107200 : Nat) : ℚ) / ((1 : Nat) : ℚ) * (2 : ℚ) ^ (X + (-17)) =
      100 * ((M : ℚ) * (2 : ℚ) ^ X) := by
    rw [two_zpow_add]
    push_cast
    norm_num
    ring
  rw [← hv] at hlo hhi ⊢
  obtain ⟨M1, X1, hr, _, hb⟩ := float.round_spec negative (M * 13107200) 1 (X + (-17))
    (Nat.mul_pos hM (by decide)) (by decide) hlo hhi
  refine ⟨M1, X1, ?_, hb⟩
  rw [float.ofInt_hundred]
  simp only [float.mul, Bool.xor_false]
  exact hr

theorem float.toRat_zero (negative : Bool) (X : Int) :
    float.toRat (float.finite negative 0 X) = some 0 := by
  simp [float.toRat]

theorem signed_bounds (negative : Bool) (G G1 v : ℚ) (hG : 0 ≤ G) (hv : 0 ≤ v)
    (hb : |G - v| ≤ v / 2 ^ 24) (hbu : |G1 - 100 * G| ≤ 100 * G / 2 ^ 24) :
    |(if negative then -1 else 1) * G - (if negative then -1 else 1) * v| ≤
        |(if negative then -1 else 1) * v| / 2 ^ 24 ∧
    |(if negative then -1 else 1) * G1 - 100 * ((if negative then -1 else 1) * G)| ≤
        |100 * ((if negative then -1 else 1) * G)| / 2 ^ 24 := by
  have h100 : (0 : ℚ) ≤ 100 * G := by linarith
  cases negative
  · simp only [Bool.false_eq_true, if_false, one_mul, abs_of_nonneg hv, abs_of_nonneg h100]
    exact ⟨hb, hbu⟩
  · have e1 : (-1 : ℚ) * G - -1 * v = -(G - v) := by ring
    have e2 : (-1 : ℚ) * G1 - 100 * (-1 * G) = -(G1 - 100 * G) := by ring
    have e3 : |(-1 : ℚ) * v| = v := by rw [neg_one_mul, abs_neg, abs_of_nonneg hv]
    have e4 : |100 * ((-1 : ℚ) * G)| = 100 * G := by
      rw [show 100 * ((-1 : ℚ) * G) = -(100 * G) by ring, abs_neg, abs_of_nonneg h100]
    simp only [if_true, e1, e2, e3, e4, abs_neg]
    exact ⟨hb, hbu⟩

/-- One axis of a sample: for a 16-bit raw count and a scale from the table, the
stored quotient and the reported product are correctly rounded. -/
theorem axis_correctlyRounded (raw c : Int) (h1 : -32768 ≤ raw) (h2 : raw ≤ 32767)
    (hc : 0 < c) (hc2 : c ≤ 6842) :
    CorrectlyRounded raw c (float.div (float.ofInt raw) (float.ofInt c))
      (float.mul (float.div (float.ofInt raw) (float.ofInt c)) (float.ofInt 100)) := by
  have hcl : c.natAbs < 2 ^ 24 := by
    have : (2 : Nat) ^ 24 = 16777216 := by norm_num
    omega
  by_cases hraw : raw = 0
  · subst hraw
    obtain ⟨mc, ec, hce, hmc, -⟩ := float.ofInt_exact c (by omega) hcl
    have hmc0 : mc ≠ 0 := by omega
    have hg : float.div (float.ofInt 0) (float.ofInt c) = float.finite false 0 (-149) := by
      rw [float.ofInt_zero, hce]
      simp [float.div, hmc0, float.round, le_of_lt hc]
    have hu : float.mul (float.finite false 0 (-149)) (float.ofInt 100) =
        float.finite false 0 (-149) := by
      rw [float.ofInt_hundred]
      simp [float.mul, float.round]
    rw [hg, hu]
    exact ⟨0, 0, float.toRat_zero _ _, by simp, float.toRat_zero _ _, by simp⟩
  · have hxl : raw.natAbs < 2 ^ 24 := by
      have : (2 : Nat) ^ 24 = 16777216 := by norm_num
      omega
    obtain ⟨M, X, hg, hM, hb⟩ := float.div_ofInt raw c hraw hxl hc hcl
    -- the exact quotient, as sign times quotient of the magnitudes
    have hA1 : (1 : ℚ) ≤ (raw.natAbs : ℚ) := by
      have : 1 ≤ raw.natAbs := Int.natAbs_pos.2 hraw
      exact_mod_cast this
    have hA2 : (raw.natAbs : ℚ) ≤ 32768 := by
      have : raw.natAbs ≤ 32768 := by omega
      exact_mod_cast this
    have hC1 : (1 : ℚ) ≤ (c.natAbs : ℚ) := by
      have : 1 ≤ c.natAbs := by omega
      exact_mod_cast this
    have hC2 : (c.natAbs : ℚ) ≤ 6842 := by
      have : c.natAbs ≤ 6842 := by omega
      exact_mod_cast this
    have hCpos : (0 : ℚ) < (c.natAbs : ℚ) := by linarith
    have hv1 : (1 : ℚ) / 6842 ≤ (raw.natAbs : ℚ) / (c.natAbs : ℚ) := by
      rw [le_div_iff₀ hCpos]
      linarith
    have hv2 : (raw.natAbs : ℚ) / (c.natAbs : ℚ) ≤ 32768 := by
      rw [div_le_iff₀ hCpos]
      nlinarith
    have hcq : (c : ℚ) = (c.natAbs : ℚ) := by
      rw [← Int.cast_natCast, Int.natAbs_of_nonneg (le_of_lt hc)]
    have hrq : (raw : ℚ) = (if decide (raw < 0) = true then -1 else 1) * (raw.natAbs : ℚ) := by
      by_cases hneg : raw < 0
      · have : (raw.natAbs : Int) = -raw := by omega
        rw [← Int.cast_natCast, this]
        simp [hneg]
      · rw [← Int.cast_natCast, Int.natAbs_of_nonneg (by omega)]
        simp [hneg]
    have hquot : (raw : ℚ) / (c : ℚ) =
        (if decide (raw < 0) = true then -1 else 1) * ((raw.natAbs : ℚ) / (c.natAbs : ℚ)) := by
      rw [hcq, mul_div_assoc']
      congr 1
    unfold CorrectlyRounded
    rw [hquot]
    generalize (raw.natAbs : ℚ) / (c.natAbs : ℚ) = v at hb hv1 hv2 ⊢
    have h24 : (2 : ℚ) ^ 24 = 16777216 := by norm_num
    obtain ⟨hb1, hb2⟩ := abs_le.1 hb
    rw [h24] at hb1 hb2
    have hlo : (2 : ℚ) ^ (-126 : Int) ≤ 100 * ((M : ℚ) * (2 : ℚ) ^ X) := by
      have h126 : (2 : ℚ) ^ (-126 : Int) ≤ 1 / 6842 := by norm_num
      exact le_trans h126 (by linarith)
    have hhi : 100 * ((M : ℚ) * (2 : ℚ) ^ X) < (2 : ℚ) ^ (127 : Int) := by
      have h127 : (6553600 : ℚ) < (2 : ℚ) ^ (127 : Int) := by norm_num
      exact lt_of_le_of_lt (by linarith) h127
    obtain ⟨M1, X1, hu, hbu⟩ := float.mul_hundred (decide (raw < 0)) M X hM hlo hhi
    rw [hg, hu]
    have hGpos : (0 : ℚ) ≤ (M : ℚ) * (2 : ℚ) ^ X :=
      mul_nonneg (by positivity) (le_of_lt (two_zpow_pos X))
    have hv0 : (0 : ℚ) ≤ v := le_trans (by norm_num) hv1
    obtain ⟨k1, k2⟩ := signed_bounds (decide (raw < 0)) _ _ v hGpos hv0 hb hbu
    exact ⟨_, _, by simp only [float.toRat, mul_assoc], k1,
      by simp only [float.toRat, mul_assoc], k2⟩

theorem scaleOf_code (h : Header) (hwf : h.WellFormed) (X : lis3mdl_range_t) :
    scaleOf h (h.range X) = float.ofInt (tableScale X) := by
  have e := hwf.range_eq_iff
  cases X <;> simp [scaleOf, tableScale, e]

theorem tableScale_bounds (X : lis3mdl_range_t) : 0 < tableScale X ∧ tableScale X ≤ 6842 := by
  cases X <;> simp [tableScale]

/-- What `read` does on a bus without faults: one burst read of the six output
registers, one read of CTRL_REG2, the three raw counts and the three quotients
by the selected scale. -/
theorem read_ok (h : Header) (d : Adafruit_LIS3MDL) (s : Bus) (hs : s.faults = []) :
    read h d s =
      ({ x := s16 ((s.regs (h.LIS3MDL_REG_OUT_X_L + 0)).val +
              256 * (s.regs (h.LIS3MDL_REG_OUT_X_L + 1)).val),
         y := s16 ((s.regs (h.LIS3MDL_REG_OUT_X_L + 2)).val +
              256 * (s.regs (h.LIS3MDL_REG_OUT_X_L + 3)).val),
         z := s16 ((s.regs (h.LIS3MDL_REG_OUT_X_L + 4)).val +
              256 * (s.regs (h.LIS3MDL_REG_OUT_X_L + 5)).val),
         x_gauss := float.div
           (float.ofInt (s16 ((s.regs (h.LIS3MDL_REG_OUT_X_L + 0)).val +
              256 * (s.regs (h.LIS3MDL_REG_OUT_X_L + 1)).val)))
           (scaleOf h (extractField (s.regs h.LIS3MDL_REG_CTRL_REG2).val 2 5)),
         y_gauss := float.div
           (float.ofInt (s16 ((s.regs (h.LIS3MDL_REG_OUT_X_L + 2)).val +
              256 * (s.regs (h.LIS3MDL_REG_OUT_X_L + 3)).val)))
           (scaleOf h (extractField (s.regs h.LIS3MDL_REG_CTRL_REG2).val 2 5)),
         z_gauss := float.div
           (float.ofInt (s16 ((s.regs (h.LIS3MDL_REG_OUT_X_L + 4)).val +
              256 * (s.regs (h.LIS3MDL_REG_OUT_X_L + 5)).val)))
           (scaleOf h (extractField (s.regs h.LIS3MDL_REG_CTRL_REG2).val 2 5)),
         _sensorID := d._sensorID },
       { regs := s.regs,
         log := s.log ++ [Effect.read h.LIS3MDL_REG_OUT_X_L 6 true,
                          Effect.read h.LIS3MDL_REG_CTRL_REG2 1 true],
         faults := [], stale := s.stale, opens := s.opens }) := by
  have h6 : List.range 6 = [0, 1, 2, 3, 4, 5] := by decide
  have hx := assemble_eq_s16 _ _ (s.regs (h.LIS3MDL_REG_OUT_X_L + 0)).isLt
    (s.regs (h.LIS3MDL_REG_OUT_X_L + 1)).isLt
  have hy := assemble_eq_s16 _ _ (s.regs (h.LIS3MDL_REG_OUT_X_L + 2)).isLt
    (s.regs (h.LIS3MDL_REG_OUT_X_L + 3)).isLt
  have hz := assemble_eq_s16 _ _ (s.regs (h.LIS3MDL_REG_OUT_X_L + 4)).isLt
    (s.regs (h.LIS3MDL_REG_OUT_X_L + 5)).isLt
  rw [← hx, ← hy, ← hz]
  simp [read, readRegister_ok s hs, h6, getRange, readField_ok]

/-! ## Properties of the driver -/

/-- C1. Round trip of every setter/getter pair on a bus without faults: for
every initial register state and every enumerated value `v`, the getter called
after the setter returns (the code of) `v`, for the performance mode, for all
twelve data rates, for the range and for the operation mode. -/
theorem setter_getter_round_trip (h : Header) (hwf : h.WellFormed) (s : Bus)
    (hs : s.faults = []) :
    (∀ v, (getPerformanceMode h (setPerformanceMode h s v)).1 = h.performancemode v) ∧
    (∀ v, (getDataRate h (setDataRate h s v)).1 = h.dataRate v) ∧
    (∀ v, (getRange h (setRange h s v)).1 = h.range v) ∧
    (∀ v, (getOperationMode h (setOperationMode h s v)).1 = h.operationmode v) := by
  refine ⟨fun v => ?_, fun v => ?_, fun v => ?_, fun v => ?_⟩
  · have hv := hwf.performancemode_lt v
    have h14 := hwf.reg14
    simp [getPerformanceMode, setPerformanceMode, writeField_ok, readField_ok, hs,
      Function.update_noteq h14, byte_insertField_val, extractField_insertField_same]
    omega
  · have hv := hwf.dataRate_lt v
    have h14 := hwf.reg14
    have e := hwf.dataRate_eq_iff
    cases v <;>
      simp [getDataRate, setDataRate, setPerformanceMode, writeField_ok, readField_ok, hs, e,
        delay, Function.update_noteq h14, byte_insertField_val,
        extractField_insertField_same] <;> omega
  · have hv := hwf.range_lt v
    simp [getRange, setRange, writeField_ok, readField_ok, hs,
      byte_insertField_val, extractField_insertField_same]
    omega
  · have hv := hwf.operationmode_lt v
    simp [getOperationMode, setOperationMode, writeField_ok, readField_ok, hs,
      byte_insertField_val, extractField_insertField_same]
    omega

/-- Witness of C1: the data-sheet header on a bus without faults. -/
theorem setter_getter_round_trip_witness :
    datasheet.WellFormed ∧ (idealBus sampleRegs).faults = [] ∧
    ((∀ v, (getPerformanceMode datasheet
        (setPerformanceMode datasheet (idealBus sampleRegs) v)).1 =
          datasheet.performancemode v) ∧
      (∀ v, (getDataRate datasheet (setDataRate datasheet (idealBus sampleRegs) v)).1 =
          datasheet.dataRate v) ∧
      (∀ v, (getRange datasheet (setRange datasheet (idealBus sampleRegs) v)).1 =
          datasheet.range v) ∧
      (∀ v, (getOperationMode datasheet
        (setOperationMode datasheet (idealBus sampleRegs) v)).1 =
          datasheet.operationmode v)) :=
  ⟨datasheet_wellFormed, rfl,
    setter_getter_round_trip datasheet datasheet_wellFormed (idealBus sampleRegs) rfl⟩

/-- C3. A field write preserves every bit outside its target span. On a bus
without faults, for every register `a`, width `w`, offset `o` inside the byte
and value `v`, the register afterwards holds (old byte with the span cleared)
OR ((`v` masked to `w` bits) shifted by `o`), its bits outside `o .. o+w-1` are
those of the old byte, and every other register is unchanged. In particular
`setRange r` changes only bits 5-6 of CTRL_REG2, which receive the code of `r`,
and no other register. -/
theorem field_write_preserves_other_bits (h : Header) (s : Bus) (hs : s.faults = []) :
    (∀ a w o v, o + w ≤ 8 →
      ((writeField s a w o v).2.regs a).val =
        (((s.regs a).val &&& (0xFF ^^^ ((2 ^ w - 1) <<< o))) |||
          ((v &&& (2 ^ w - 1)) <<< o)) ∧
      (∀ i, ¬ (o ≤ i ∧ i < o + w) →
        ((writeField s a w o v).2.regs a).val.testBit i = (s.regs a).val.testBit i) ∧
      (∀ a1, a1 ≠ a → (writeField s a w o v).2.regs a1 = s.regs a1)) ∧
    (∀ r a i, ¬ (a = h.LIS3MDL_REG_CTRL_REG2 ∧ 5 ≤ i ∧ i < 7) →
      ((setRange h s r).regs a).val.testBit i = (s.regs a).val.testBit i) ∧
    (∀ r i, 5 ≤ i → i < 7 →
      ((setRange h s r).regs h.LIS3MDL_REG_CTRL_REG2).val.testBit i =
        (h.range r).testBit (i - 5)) := by
  have key := writeField_testBit_outside s hs
  refine ⟨fun a w o v hfit => ⟨?_, fun i hi => key a w o v a i (fun hc => hi hc.2), ?_⟩,
    fun r a i hout => key _ 2 5 _ a i hout, fun r i h5 h7 => ?_⟩
  · rw [writeField_ok s hs]
    simp only [Function.update_same, byte_insertField_val]
    have hlt := insertField_lt (s.regs a).val w o v
    unfold insertField at hlt ⊢
    apply Nat.mod_eq_of_lt
    apply Nat.lt_pow_two_of_testBit _ (n := 8)
    intro i hi
    have hb := testBit_byte_high _ i (s.regs a).isLt hi
    have hw : ¬ (i - o < w) := by omega
    simp [hb, Nat.testBit_shiftLeft, hw]
  · intro a1 ha
    rw [writeField_ok s hs]
    simp [Function.update_noteq ha]
  · have h8 : i < 8 := by omega
    have hin : 5 ≤ i ∧ i < 5 + 2 := ⟨h5, by omega⟩
    have h256 : (256 : Nat) = 2 ^ 8 := by norm_num
    have hi5 : i - 5 < 8 := by omega
    simp only [setRange]
    rw [writeField_ok s hs]
    simp only [Function.update_same, byte_insertField_val, testBit_insertField, if_pos hin]
    rw [h256, Nat.testBit_mod_two_pow]
    simp [h8, hi5]

/-- Witness of C3: CTRL_REG2 holds 0b10101010 and `setRange` writes the code
0b11 of ±16 gauss at width 2, offset 5; the register then holds 0b11101010 and
the identity register is untouched. -/
theorem field_write_preserves_other_bits_witness :
    (idealBus sampleRegs).faults = [] ∧
    ((writeField (idealBus sampleRegs) 0x21 2 5 0b11).2.regs 0x21).val = 0b11101010 ∧
    ((setRange datasheet (idealBus sampleRegs) LIS3MDL_RANGE_16_GAUSS).regs 0x21).val =
      0b11101010 ∧
    (∀ i, ¬ (5 ≤ i ∧ i < 5 + 2) →
      ((writeField (idealBus sampleRegs) 0x21 2 5 0b11).2.regs 0x21).val.testBit i =
        (sampleRegs 0x21).val.testBit i) ∧
    (∀ a1, a1 ≠ 0x21 →
      (writeField (idealBus sampleRegs) 0x21 2 5 0b11).2.regs a1 = sampleRegs a1) :=
  ⟨rfl,
    ((field_write_preserves_other_bits datasheet (idealBus sampleRegs) rfl).1
      0x21 2 5 0b11 (by decide)).1,
    by decide,
    ((field_write_preserves_other_bits datasheet (idealBus sampleRegs) rfl).1
      0x21 2 5 0b11 (by decide)).2.1,
    ((field_write_preserves_other_bits datasheet (idealBus sampleRegs) rfl).1
      0x21 2 5 0b11 (by decide)).2.2⟩

/-- C8. On a bus without faults, for every mode `m` and every initial register
state, `setPerformanceMode m` issues exactly two field writes carrying the code
of `m`: width 2 at offset 5 of CTRL_REG1 and width 2 at offset 2 of CTRL_REG4.
Both fields then hold the code, every other bit of every register is unchanged,
and `getDataRate` returns the same value before and after. -/
theorem setPerformanceMode_two_field_writes (h : Header) (hwf : h.WellFormed) (s : Bus)
    (hs : s.faults = []) (m : lis3mdl_performancemode_t) :
    (setPerformanceMode h s m).log =
      s.log ++
        [Effect.read h.LIS3MDL_REG_CTRL_REG1 1 true,
         Effect.write h.LIS3MDL_REG_CTRL_REG1
           [insertField (s.regs h.LIS3MDL_REG_CTRL_REG1).val 2 5 (h.performancemode m)] true,
         Effect.read h.LIS3MDL_REG_CTRL_REG4 1 true,
         Effect.write h.LIS3MDL_REG_CTRL_REG4
           [insertField (s.regs h.LIS3MDL_REG_CTRL_REG4).val 2 2 (h.performancemode m)] true] ∧
    extractField ((setPerformanceMode h s m).regs h.LIS3MDL_REG_CTRL_REG1).val 2 5 =
      h.performancemode m ∧
    extractField ((setPerformanceMode h s m).regs h.LIS3MDL_REG_CTRL_REG4).val 2 2 =
      h.performancemode m ∧
    (∀ a i, ¬ (a = h.LIS3MDL_REG_CTRL_REG1 ∧ 5 ≤ i ∧ i < 7) →
      ¬ (a = h.LIS3MDL_REG_CTRL_REG4 ∧ 2 ≤ i ∧ i < 4) →
      ((setPerformanceMode h s m).regs a).val.testBit i = (s.regs a).val.testBit i) ∧
    (getDataRate h (setPerformanceMode h s m)).1 = (getDataRate h s).1 := by
  have hm := mod_256_of_lt_4 _ (hwf.performancemode_lt m)
  have hm4 : h.performancemode m % 4 = h.performancemode m :=
    Nat.mod_eq_of_lt (hwf.performancemode_lt m)
  have h14 := hwf.reg14
  have h41 := hwf.reg14.symm
  refine ⟨?_, ?_, ?_, ?_, ?_⟩
  · simp [setPerformanceMode, writeField_ok, hs, hm, Function.update_noteq h41]
  · simp [setPerformanceMode, writeField_ok, hs, hm, Function.update_noteq h14,
      byte_insertField_val, extractField_insertField_same, hm4]
  · simp [setPerformanceMode, writeField_ok, hs, hm,
      byte_insertField_val, extractField_insertField_same, hm4]
  · intro a i h1 h4
    simp only [setPerformanceMode]
    rw [writeField_testBit_outside _ (writeField_faults s hs _ _ _ _) _ _ _ _ _ _ h4,
      writeField_testBit_outside s hs _ _ _ _ _ _ h1]
  · simp [getDataRate, setPerformanceMode, writeField_ok, readField_ok, hs, hm,
      Function.update_noteq h14, byte_insertField_val]
    exact extractField_insertField_disjoint _ _ _ _ _ _ (s.regs _).isLt (Or.inl (by decide))

/-- Witness of C8: the data-sheet header, ultra-high mode. -/
theorem setPerformanceMode_two_field_writes_witness :
    datasheet.WellFormed ∧ (idealBus sampleRegs).faults = [] ∧
    (setPerformanceMode datasheet (idealBus sampleRegs) LIS3MDL_ULTRAHIGHMODE).log =
      [Effect.read 0x20 1 true, Effect.write 0x20 [0b01100000] true,
       Effect.read 0x23 1 true, Effect.write 0x23 [0b00001100] true] ∧
    (getDataRate datasheet
      (setPerformanceMode datasheet (idealBus sampleRegs) LIS3MDL_ULTRAHIGHMODE)).1 =
        (getDataRate datasheet (idealBus sampleRegs)).1 :=
  ⟨datasheet_wellFormed, rfl,
    (setPerformanceMode_two_field_writes datasheet datasheet_wellFormed
      (idealBus sampleRegs) rfl LIS3MDL_ULTRAHIGHMODE).1,
    (setPerformanceMode_two_field_writes datasheet datasheet_wellFormed
      (idealBus sampleRegs) rfl LIS3MDL_ULTRAHIGHMODE).2.2.2.2⟩

/-- C6. Coupling of data rate and performance mode on a bus without faults. For
a rate `r` of 155, 300, 560 or 1000 Hz, `setDataRate r` is: `setPerformanceMode`
with the mapped mode, then the delay, then the write of the rate field; after it
`getPerformanceMode` returns the mapped mode and `getDataRate` returns `r`. For
a rate below 155 Hz, `setDataRate r` leaves the performance-mode fields
(CTRL_REG1 bits 5-6, CTRL_REG4 bits 2-3) unchanged. -/
theorem setDataRate_performance_coupling (h : Header) (hwf : h.WellFormed) (s : Bus)
    (hs : s.faults = []) (r : lis3mdl_dataRate_t) :
    (∀ m, mappedMode r = some m →
      setDataRate h s r =
        (writeField (delay (setPerformanceMode h s m) 10)
          h.LIS3MDL_REG_CTRL_REG1 4 1 (h.dataRate r)).2 ∧
      (getPerformanceMode h (setDataRate h s r)).1 = h.performancemode m ∧
      (getDataRate h (setDataRate h s r)).1 = h.dataRate r) ∧
    (mappedMode r = none →
      extractField ((setDataRate h s r).regs h.LIS3MDL_REG_CTRL_REG1).val 2 5 =
        extractField (s.regs h.LIS3MDL_REG_CTRL_REG1).val 2 5 ∧
      extractField ((setDataRate h s r).regs h.LIS3MDL_REG_CTRL_REG4).val 2 2 =
        extractField (s.regs h.LIS3MDL_REG_CTRL_REG4).val 2 2 ∧
      (getPerformanceMode h (setDataRate h s r)).1 = (getPerformanceMode h s).1) := by
  have hr := mod_256_of_lt_16 _ (hwf.dataRate_lt r)
  have hr16 : h.dataRate r % 16 = h.dataRate r := Nat.mod_eq_of_lt (hwf.dataRate_lt r)
  have hp := fun m => mod_256_of_lt_4 _ (hwf.performancemode_lt m)
  have hp4 : ∀ m, h.performancemode m % 4 = h.performancemode m :=
    fun m => Nat.mod_eq_of_lt (hwf.performancemode_lt m)
  have h14 := hwf.reg14
  have h41 := hwf.reg14.symm
  have e := hwf.dataRate_eq_iff
  have hdis : ∀ b v, b < 256 →
      extractField (insertField b 4 1 v) 2 5 = extractField b 2 5 :=
    fun b v hb => extractField_insertField_disjoint b 4 1 v 2 5 hb (Or.inr (by decide))
  refine ⟨fun m hm => ?_, fun hnone => ?_⟩
  · cases r <;> simp [mappedMode] at hm <;> subst hm <;> refine ⟨?_, ?_, ?_⟩ <;>
      simp [getPerformanceMode, getDataRate, setDataRate, setPerformanceMode, writeField_ok,
        readField_ok, hs, e, delay, hr, hr16, hp, hp4, Function.update_noteq h14,
        Function.update_noteq h41, byte_insertField_val, extractField_insertField_same,
        hdis _ _ (insertField_lt _ _ _ _)]
  · cases r <;> simp [mappedMode] at hnone <;> refine ⟨?_, ?_, ?_⟩ <;>
      simp [getPerformanceMode, getDataRate, setDataRate, setPerformanceMode, writeField_ok,
        readField_ok, hs, e, delay, hr, hr16, hp, hp4, Function.update_noteq h14,
        Function.update_noteq h41, byte_insertField_val, extractField_insertField_same,
        hdis _ _ (s.regs _).isLt]

/-- Witness of C6: 560 Hz forces medium performance mode, 10 Hz forces
nothing. -/
theorem setDataRate_performance_coupling_witness :
    datasheet.WellFormed ∧ (idealBus sampleRegs).faults = [] ∧
    mappedMode LIS3MDL_DATARATE_560_HZ = some LIS3MDL_MEDIUMMODE ∧
    mappedMode LIS3MDL_DATARATE_10_HZ = none ∧
    (getPerformanceMode datasheet
      (setDataRate datasheet (idealBus sampleRegs) LIS3MDL_DATARATE_560_HZ)).1 =
        datasheet.performancemode LIS3MDL_MEDIUMMODE ∧
    (getDataRate datasheet
      (setDataRate datasheet (idealBus sampleRegs) LIS3MDL_DATARATE_560_HZ)).1 =
        datasheet.dataRate LIS3MDL_DATARATE_560_HZ ∧
    (getPerformanceMode datasheet
      (setDataRate datasheet (idealBus sampleRegs) LIS3MDL_DATARATE_10_HZ)).1 =
        (getPerformanceMode datasheet (idealBus sampleRegs)).1 :=
  ⟨datasheet_wellFormed, rfl, rfl, rfl,
    ((setDataRate_performance_coupling datasheet datasheet_wellFormed (idealBus sampleRegs)
      rfl LIS3MDL_DATARATE_560_HZ).1 LIS3MDL_MEDIUMMODE rfl).2.1,
    ((setDataRate_performance_coupling datasheet datasheet_wellFormed (idealBus sampleRegs)
      rfl LIS3MDL_DATARATE_560_HZ).1 LIS3MDL_MEDIUMMODE rfl).2.2,
    ((setDataRate_performance_coupling datasheet datasheet_wellFormed (idealBus sampleRegs)
      rfl LIS3MDL_DATARATE_10_HZ).2 rfl).2.2⟩

/-- C10, counterexample. With the data-sheet header and all-zero control
registers, `setDataRate` at 80 Hz (a rate below 155 Hz) performs the 10 ms delay
before its rate-field write. -/
theorem setDataRate_low_rate_delays :
    (setDataRate datasheet (idealBus sampleRegs) LIS3MDL_DATARATE_80_HZ).log =
        [Effect.delay 10, Effect.read 0x20 1 true, Effect.write 0x20 [0x1C] true] ∧
    Effect.delay 10 ∈
      (setDataRate datasheet (idealBus sampleRegs) LIS3MDL_DATARATE_80_HZ).log := by
  decide

/-- C10, amended. The fixed 10 ms delay of `setDataRate` is unconditional. On a
bus without faults, for a rate of 155, 300, 560 or 1000 Hz the effect sequence
is that of `setPerformanceMode` with the mapped mode, then the delay, then the
field write of the rate (width 4, offset 1 of CTRL_REG1); for every rate below
155 Hz it is the delay followed by that field write, with no other effect. -/
theorem setDataRate_effects (h : Header) (hwf : h.WellFormed) (s : Bus)
    (hs : s.faults = []) (r : lis3mdl_dataRate_t) :
    (∀ m, mappedMode r = some m →
      (setDataRate h s r).log =
        (setPerformanceMode h s m).log ++
          [Effect.delay 10, Effect.read h.LIS3MDL_REG_CTRL_REG1 1 true,
           Effect.write h.LIS3MDL_REG_CTRL_REG1
             [insertField ((setPerformanceMode h s m).regs h.LIS3MDL_REG_CTRL_REG1).val 4 1
               (h.dataRate r)] true]) ∧
    (mappedMode r = none →
      (setDataRate h s r).log =
        s.log ++
          [Effect.delay 10, Effect.read h.LIS3MDL_REG_CTRL_REG1 1 true,
           Effect.write h.LIS3MDL_REG_CTRL_REG1
             [insertField (s.regs h.LIS3MDL_REG_CTRL_REG1).val 4 1 (h.dataRate r)] true]) := by
  have hr := mod_256_of_lt_16 _ (hwf.dataRate_lt r)
  have e := hwf.dataRate_eq_iff
  refine ⟨fun m hm => ?_, fun hnone => ?_⟩
  · cases r <;> simp [mappedMode] at hm <;> subst hm <;>
      simp [setDataRate, setPerformanceMode, writeField_ok, hs, e, delay, hr]
  · cases r <;> simp [mappedMode] at hnone <;>
      simp [setDataRate, setPerformanceMode, writeField_ok, hs, e, delay, hr]

/-- Witness of the amended C10: 1000 Hz and 80 Hz with the data-sheet header. -/
theorem setDataRate_effects_witness :
    datasheet.WellFormed ∧ (idealBus sampleRegs).faults = [] ∧
    mappedMode LIS3MDL_DATARATE_1000_HZ = some LIS3MDL_LOWPOWERMODE ∧
    mappedMode LIS3MDL_DATARATE_80_HZ = none ∧
    (setDataRate datasheet (idealBus sampleRegs) LIS3MDL_DATARATE_1000_HZ).log =
      [Effect.read 0x20 1 true, Effect.write 0x20 [0] true,
       Effect.read 0x23 1 true, Effect.write 0x23 [0] true,
       Effect.delay 10, Effect.read 0x20 1 true, Effect.write 0x20 [0b00001110] true] ∧
    (setDataRate datasheet (idealBus sampleRegs) LIS3MDL_DATARATE_80_HZ).log =
      [Effect.delay 10, Effect.read 0x20 1 true, Effect.write 0x20 [0b00011100] true] :=
  ⟨datasheet_wellFormed, rfl, rfl, rfl,
    (setDataRate_effects datasheet datasheet_wellFormed (idealBus sampleRegs) rfl
      LIS3MDL_DATARATE_1000_HZ).1 LIS3MDL_LOWPOWERMODE rfl,
    (setDataRate_effects datasheet datasheet_wellFormed (idealBus sampleRegs) rfl
      LIS3MDL_DATARATE_80_HZ).2 rfl⟩

/-- C5. Default configuration after a successful initialization. On a bus
without faults where the session opens and WHO_AM_I reads 0x3D, `begin` returns
true after performing, in this order, the identity read, `reset` (0b11 into
bits 2-3 of CTRL_REG2, then a 10 ms delay), `setPerformanceMode` (high),
`setDataRate` (80 Hz) and `setRange` (±4 gauss). In the resulting register
state `getPerformanceMode` returns high, the Z-axis field of CTRL_REG4 holds the
high code, `getDataRate` returns 80 Hz and `getRange` returns ±4 gauss. -/
theorem begin_default_configuration (h : Header) (hwf : h.WellFormed) (s : Bus)
    (hs : s.faults = []) (i2c_address : Nat) (hopen : s.opens i2c_address = true)
    (hid : (s.regs h.LIS3MDL_REG_WHO_AM_I).val = 0x3D) :
    (begin h s i2c_address).1 = true ∧
    (begin h s i2c_address).2 =
      setRange h
        (setDataRate h
          (setPerformanceMode h
            (delay (writeField (readRegister8 s h.LIS3MDL_REG_WHO_AM_I).2
              h.LIS3MDL_REG_CTRL_REG2 2 2 0b11).2 10)
            LIS3MDL_HIGHMODE)
          LIS3MDL_DATARATE_80_HZ)
        LIS3MDL_RANGE_4_GAUSS ∧
    (begin h s i2c_address).2.log =
      s.log ++
        [Effect.read h.LIS3MDL_REG_WHO_AM_I 1 true,
         Effect.read h.LIS3MDL_REG_CTRL_REG2 1 true,
         Effect.write h.LIS3MDL_REG_CTRL_REG2
           [insertField (s.regs h.LIS3MDL_REG_CTRL_REG2).val 2 2 0b11] true,
         Effect.delay 10,
         Effect.read h.LIS3MDL_REG_CTRL_REG1 1 true,
         Effect.write h.LIS3MDL_REG_CTRL_REG1
           [insertField (s.regs h.LIS3MDL_REG_CTRL_REG1).val 2 5
             (h.performancemode LIS3MDL_HIGHMODE)] true,
         Effect.read h.LIS3MDL_REG_CTRL_REG4 1 true,
         Effect.write h.LIS3MDL_REG_CTRL_REG4
           [insertField (s.regs h.LIS3MDL_REG_CTRL_REG4).val 2 2
             (h.performancemode LIS3MDL_HIGHMODE)] true,
         Effect.delay 10,
         Effect.read h.LIS3MDL_REG_CTRL_REG1 1 true,
         Effect.write h.LIS3MDL_REG_CTRL_REG1
           [insertField
             (insertField (s.regs h.LIS3MDL_REG_CTRL_REG1).val 2 5
               (h.performancemode LIS3MDL_HIGHMODE))
             4 1 (h.dataRate LIS3MDL_DATARATE_80_HZ)] true,
         Effect.read h.LIS3MDL_REG_CTRL_REG2 1 true,
         Effect.write h.LIS3MDL_REG_CTRL_REG2
           [insertField (insertField (s.regs h.LIS3MDL_REG_CTRL_REG2).val 2 2 0b11) 2 5
             (h.range LIS3MDL_RANGE_4_GAUSS)] true] ∧
    (getPerformanceMode h (begin h s i2c_address).2).1 =
      h.performancemode LIS3MDL_HIGHMODE ∧
    extractField ((begin h s i2c_address).2.regs h.LIS3MDL_REG_CTRL_REG4).val 2 2 =
      h.performancemode LIS3MDL_HIGHMODE ∧
    (getDataRate h (begin h s i2c_address).2).1 = h.dataRate LIS3MDL_DATARATE_80_HZ ∧
    (getRange h (begin h s i2c_address).2).1 = h.range LIS3MDL_RANGE_4_GAUSS := by
  have hr := mod_256_of_lt_16 _ (hwf.dataRate_lt LIS3MDL_DATARATE_80_HZ)
  have hr16 : h.dataRate LIS3MDL_DATARATE_80_HZ % 16 = h.dataRate LIS3MDL_DATARATE_80_HZ :=
    Nat.mod_eq_of_lt (hwf.dataRate_lt _)
  have hp := mod_256_of_lt_4 _ (hwf.performancemode_lt LIS3MDL_HIGHMODE)
  have hp4 : h.performancemode LIS3MDL_HIGHMODE % 4 = h.performancemode LIS3MDL_HIGHMODE :=
    Nat.mod_eq_of_lt (hwf.performancemode_lt _)
  have hg := mod_256_of_lt_4 _ (hwf.range_lt LIS3MDL_RANGE_4_GAUSS)
  have hg4 : h.range LIS3MDL_RANGE_4_GAUSS % 4 = h.range LIS3MDL_RANGE_4_GAUSS :=
    Nat.mod_eq_of_lt (hwf.range_lt _)
  have h12 := hwf.reg12
  have h21 := hwf.reg12.symm
  have h14 := hwf.reg14
  have h41 := hwf.reg14.symm
  have h24 := hwf.reg24
  have h42 := hwf.reg24.symm
  have e := hwf.dataRate_eq_iff
  have hdis : ∀ b v, b < 256 →
      extractField (insertField b 4 1 v) 2 5 = extractField b 2 5 :=
    fun b v hb => extractField_insertField_disjoint b 4 1 v 2 5 hb (Or.inr (by decide))
  refine ⟨?_, ?_, ?_, ?_, ?_, ?_, ?_⟩ <;>
    simp [begin, reset, hopen, hid, getPerformanceMode, getDataRate, getRange, setRange,
      setDataRate, setPerformanceMode, writeField_ok, readField_ok, readRegister8_ok, hs, e,
      delay, hr, hr16, hp, hp4, hg, hg4, Function.update_noteq h12, Function.update_noteq h21,
      Function.update_noteq h14, Function.update_noteq h41, Function.update_noteq h24,
      Function.update_noteq h42, byte_insertField_val, extractField_insertField_same,
      hdis _ _ (insertField_lt _ _ _ _)]

/-- Witness of C5: the data-sheet header, a device answering 0x3D, CTRL_REG2
initially 0b10101010. -/
theorem begin_default_configuration_witness :
    datasheet.WellFormed ∧ (idealBus sampleRegs).faults = [] ∧
    (idealBus sampleRegs).opens 0x1C = true ∧
    ((idealBus sampleRegs).regs datasheet.LIS3MDL_REG_WHO_AM_I).val = 0x3D ∧
    (begin datasheet (idealBus sampleRegs) 0x1C).1 = true ∧
    (begin datasheet (idealBus sampleRegs) 0x1C).2.log =
      [Effect.read 0x0F 1 true,
       Effect.read 0x21 1 true, Effect.write 0x21 [0b10101110] true, Effect.delay 10,
       Effect.read 0x20 1 true, Effect.write 0x20 [0b01000000] true,
       Effect.read 0x23 1 true, Effect.write 0x23 [0b00001000] true,
       Effect.delay 10, Effect.read 0x20 1 true, Effect.write 0x20 [0b01011100] true,
       Effect.read 0x21 1 true, Effect.write 0x21 [0b10001110] true] ∧
    (getPerformanceMode datasheet (begin datasheet (idealBus sampleRegs) 0x1C).2).1 = 0b10 ∧
    extractField ((begin datasheet (idealBus sampleRegs) 0x1C).2.regs 0x23).val 2 2 = 0b10 ∧
    (getDataRate datasheet (begin datasheet (idealBus sampleRegs) 0x1C).2).1 = 0b1110 ∧
    (getRange datasheet (begin datasheet (idealBus sampleRegs) 0x1C).2).1 = 0b00 :=
  ⟨datasheet_wellFormed, rfl, rfl, by decide,
    (begin_default_configuration datasheet datasheet_wellFormed (idealBus sampleRegs) rfl
      0x1C rfl (by decide)).1,
    (begin_default_configuration datasheet datasheet_wellFormed (idealBus sampleRegs) rfl
      0x1C rfl (by decide)).2.2.1,
    (begin_default_configuration datasheet datasheet_wellFormed (idealBus sampleRegs) rfl
      0x1C rfl (by decide)).2.2.2.1,
    (begin_default_configuration datasheet datasheet_wellFormed (idealBus sampleRegs) rfl
      0x1C rfl (by decide)).2.2.2.2.1,
    (begin_default_configuration datasheet datasheet_wellFormed (idealBus sampleRegs) rfl
      0x1C rfl (by decide)).2.2.2.2.2.1,
    (begin_default_configuration datasheet datasheet_wellFormed (idealBus sampleRegs) rfl
      0x1C rfl (by decide)).2.2.2.2.2.2⟩

/-- C4. Identity check of initialization. When the bus session cannot be
opened, `begin` returns false and leaves the world as it was: no register access
at all. When the session opens and the identity read returns a value other than
0x3D, `begin` returns false after that single read transaction: no reset and no
default configuration, that is no register write and no delay, and every device
register is unchanged. -/
theorem begin_identity_check (h : Header) (s : Bus) (i2c_address : Nat) :
    (s.opens i2c_address = false → begin h s i2c_address = (false, s)) ∧
    (s.opens i2c_address = true → (readRegister8 s h.LIS3MDL_REG_WHO_AM_I).1 ≠ 0x3D →
      (begin h s i2c_address).1 = false ∧
      (begin h s i2c_address).2.regs = s.regs ∧
      (begin h s i2c_address).2.log =
        s.log ++ [Effect.read h.LIS3MDL_REG_WHO_AM_I 1 (!(s.faults.headD false))]) := by
  refine ⟨fun hclosed => ?_, fun hopen hne => ?_⟩
  · simp [begin, hclosed]
  · have hst := readRegister8_state s h.LIS3MDL_REG_WHO_AM_I
    refine ⟨?_, ?_, ?_⟩ <;> simp [begin, hopen, hne, hst]

/-- Witness of C4: a device that cannot be reached, and a device whose identity
register reads 0. -/
theorem begin_identity_check_witness :
    ((absentBus sampleRegs).opens 0x1C = false ∧
      begin datasheet (absentBus sampleRegs) 0x1C = (false, absentBus sampleRegs)) ∧
    ((idealBus fun _ => 0).opens 0x1C = true ∧
      (readRegister8 (idealBus fun _ => 0) datasheet.LIS3MDL_REG_WHO_AM_I).1 ≠ 0x3D ∧
      (begin datasheet (idealBus fun _ => 0) 0x1C).1 = false ∧
      (begin datasheet (idealBus fun _ => 0) 0x1C).2.regs = (fun _ => 0) ∧
      (begin datasheet (idealBus fun _ => 0) 0x1C).2.log = [Effect.read 0x0F 1 true]) :=
  ⟨⟨rfl, (begin_identity_check datasheet (absentBus sampleRegs) 0x1C).1 rfl⟩,
    rfl, by decide,
    (begin_identity_check datasheet (idealBus fun _ => 0) 0x1C).2 rfl (by decide)⟩

/-- C7, the code at a failing input. With the data-sheet header, a device that
identifies itself as 0x3D and a bus on which the write of the reset pattern
fails, `begin` still returns true. -/
theorem begin_true_despite_failed_write :
    (begin datasheet faultyBus 0x1C).1 = true ∧
    Effect.write 0x21 [0xAE] false ∈ (begin datasheet faultyBus 0x1C).2.log := by
  decide

/-- C9. Raw sample assembly. On a bus without faults, for every content
b0 .. b5 of the six output registers starting at OUT_X_L, `read` sets x, y, z to
the little-endian two's-complement 16-bit values of the byte pairs:
x = s16 (b0 + 256 b1), y = s16 (b2 + 256 b3), z = s16 (b4 + 256 b5); each lies
between -32768 and 32767. -/
theorem read_raw_sample (h : Header) (d : Adafruit_LIS3MDL) (s : Bus) (hs : s.faults = []) :
    ((read h d s).1.x =
        s16 ((s.regs (h.LIS3MDL_REG_OUT_X_L + 0)).val +
          256 * (s.regs (h.LIS3MDL_REG_OUT_X_L + 1)).val) ∧
      (read h d s).1.y =
        s16 ((s.regs (h.LIS3MDL_REG_OUT_X_L + 2)).val +
          256 * (s.regs (h.LIS3MDL_REG_OUT_X_L + 3)).val) ∧
      (read h d s).1.z =
        s16 ((s.regs (h.LIS3MDL_REG_OUT_X_L + 4)).val +
          256 * (s.regs (h.LIS3MDL_REG_OUT_X_L + 5)).val)) ∧
    (-32768 ≤ (read h d s).1.x ∧ (read h d s).1.x ≤ 32767) ∧
    (-32768 ≤ (read h d s).1.y ∧ (read h d s).1.y ≤ 32767) ∧
    (-32768 ≤ (read h d s).1.z ∧ (read h d s).1.z ≤ 32767) := by
  have h6 : List.range 6 = [0, 1, 2, 3, 4, 5] := by decide
  have hx := assemble_eq_s16 _ _ (s.regs (h.LIS3MDL_REG_OUT_X_L + 0)).isLt
    (s.regs (h.LIS3MDL_REG_OUT_X_L + 1)).isLt
  have hy := assemble_eq_s16 _ _ (s.regs (h.LIS3MDL_REG_OUT_X_L + 2)).isLt
    (s.regs (h.LIS3MDL_REG_OUT_X_L + 3)).isLt
  have hz := assemble_eq_s16 _ _ (s.regs (h.LIS3MDL_REG_OUT_X_L + 4)).isLt
    (s.regs (h.LIS3MDL_REG_OUT_X_L + 5)).isLt
  have ex : (read h d s).1.x = s16 ((s.regs (h.LIS3MDL_REG_OUT_X_L + 0)).val +
      256 * (s.regs (h.LIS3MDL_REG_OUT_X_L + 1)).val) := by
    rw [← hx]
    simp [read, readRegister_ok s hs, h6]
  have ey : (read h d s).1.y = s16 ((s.regs (h.LIS3MDL_REG_OUT_X_L + 2)).val +
      256 * (s.regs (h.LIS3MDL_REG_OUT_X_L + 3)).val) := by
    rw [← hy]
    simp [read, readRegister_ok s hs, h6]
  have ez : (read h d s).1.z = s16 ((s.regs (h.LIS3MDL_REG_OUT_X_L + 4)).val +
      256 * (s.regs (h.LIS3MDL_REG_OUT_X_L + 5)).val) := by
    rw [← hz]
    simp [read, readRegister_ok s hs, h6]
  have b0 := (s.regs (h.LIS3MDL_REG_OUT_X_L + 0)).isLt
  have b1 := (s.regs (h.LIS3MDL_REG_OUT_X_L + 1)).isLt
  have b2 := (s.regs (h.LIS3MDL_REG_OUT_X_L + 2)).isLt
  have b3 := (s.regs (h.LIS3MDL_REG_OUT_X_L + 3)).isLt
  have b4 := (s.regs (h.LIS3MDL_REG_OUT_X_L + 4)).isLt
  have b5 := (s.regs (h.LIS3MDL_REG_OUT_X_L + 5)).isLt
  refine ⟨⟨ex, ey, ez⟩, ?_, ?_, ?_⟩
  · rw [ex]
    exact s16_bounds _ (by omega)
  · rw [ey]
    exact s16_bounds _ (by omega)
  · rw [ez]
    exact s16_bounds _ (by omega)

/-- Witness of C9: the burst BA 1A 00 00 46 E5 gives x = 6842, y = 0 and
z = -6842 (bytes 0x46, 0xE5). -/
theorem read_raw_sample_witness :
    (idealBus sampleBurst).faults = [] ∧
    (read datasheet sampleDevice (idealBus sampleBurst)).1.x = s16 (0xBA + 256 * 0x1A) ∧
    (read datasheet sampleDevice (idealBus sampleBurst)).1.y = s16 (0x00 + 256 * 0x00) ∧
    (read datasheet sampleDevice (idealBus sampleBurst)).1.z = s16 (0x46 + 256 * 0xE5) ∧
    s16 (0x46 + 256 * 0xE5) = -6842 :=
  ⟨rfl,
    (read_raw_sample datasheet sampleDevice (idealBus sampleBurst) rfl).1.1,
    (read_raw_sample datasheet sampleDevice (idealBus sampleBurst) rfl).1.2.1,
    (read_raw_sample datasheet sampleDevice (idealBus sampleBurst) rfl).1.2.2,
    by decide⟩

/-- C2, counterexample. With the data-sheet header, range ±4 gauss (code 0 in
bits 5-6 of CTRL_REG2) and the burst 01 00 00 00 00 00, `read` assembles the raw
count x = 1 and stores the binary32 number 10043770 * 2^-36 as its gauss value,
which is not the exact rational 1 / 6842. -/
theorem read_gauss_not_exact :
    extractField ((idealBus unitBurst).regs datasheet.LIS3MDL_REG_CTRL_REG2).val 2 5 =
      datasheet.range LIS3MDL_RANGE_4_GAUSS ∧
    (read datasheet sampleDevice (idealBus unitBurst)).1.x = 1 ∧
    (read datasheet sampleDevice (idealBus unitBurst)).1.x_gauss =
      float.finite false 10043770 (-36) ∧
    (read datasheet sampleDevice (idealBus unitBurst)).1.x_gauss.toRat ≠
      some ((1 : ℚ) / 6842) := by
  have hg : (read datasheet sampleDevice (idealBus unitBurst)).1.x_gauss =
      float.finite false 10043770 (-36) := by decide
  refine ⟨by decide, by decide, hg, ?_⟩
  rw [hg]
  norm_num [float.toRat]

/-- C2, amended. Range-aware scaling is correctly rounded. On a bus without
faults, for each range setting `X` held in bits 5-6 of CTRL_REG2 and for every
content of the six output registers, `read` performs the burst read and the read
of CTRL_REG2 and stores per axis the binary32 quotient of the raw count (the
16-bit value assembled from the registers) by scale(X), with scale 6842, 3421,
2281, 1711 for ±4, ±8, ±12, ±16 gauss; `getEvent` succeeds and reports the
binary32 product of that value and 100. Each stored gauss value is finite and
within relative error 2^-24 of the exact raw / scale(X), and each reported
microtesla value is finite and within relative error 2^-24 of 100 times the
stored gauss value. -/
theorem read_scaling_correctly_rounded (h : Header) (hwf : h.WellFormed)
    (d : Adafruit_LIS3MDL) (s : Bus) (hs : s.faults = []) (X : lis3mdl_range_t) (millis : Nat)
    (hX : extractField (s.regs h.LIS3MDL_REG_CTRL_REG2).val 2 5 = h.range X) :
    (read h d s).2.log =
      s.log ++ [Effect.read h.LIS3MDL_REG_OUT_X_L 6 true,
                Effect.read h.LIS3MDL_REG_CTRL_REG2 1 true] ∧
    ((read h d s).1.x_gauss =
        float.div
          (float.ofInt (s16 ((s.regs (h.LIS3MDL_REG_OUT_X_L + 0)).val +
            256 * (s.regs (h.LIS3MDL_REG_OUT_X_L + 1)).val)))
          (float.ofInt (tableScale X)) ∧
      (read h d s).1.y_gauss =
        float.div
          (float.ofInt (s16 ((s.regs (h.LIS3MDL_REG_OUT_X_L + 2)).val +
            256 * (s.regs (h.LIS3MDL_REG_OUT_X_L + 3)).val)))
          (float.ofInt (tableScale X)) ∧
      (read h d s).1.z_gauss =
        float.div
          (float.ofInt (s16 ((s.regs (h.LIS3MDL_REG_OUT_X_L + 4)).val +
            256 * (s.regs (h.LIS3MDL_REG_OUT_X_L + 5)).val)))
          (float.ofInt (tableScale X))) ∧
    ((getEvent h d s millis).1 = true ∧
      (getEvent h d s millis).2.2 = read h d s ∧
      (getEvent h d s millis).2.1.magnetic_x =
        float.mul (read h d s).1.x_gauss (float.ofInt 100) ∧
      (getEvent h d s millis).2.1.magnetic_y =
        float.mul (read h d s).1.y_gauss (float.ofInt 100) ∧
      (getEvent h d s millis).2.1.magnetic_z =
        float.mul (read h d s).1.z_gauss (float.ofInt 100)) ∧
    (CorrectlyRounded
        (s16 ((s.regs (h.LIS3MDL_REG_OUT_X_L + 0)).val +
          256 * (s.regs (h.LIS3MDL_REG_OUT_X_L + 1)).val))
        (tableScale X) (read h d s).1.x_gauss (getEvent h d s millis).2.1.magnetic_x ∧
      CorrectlyRounded
        (s16 ((s.regs (h.LIS3MDL_REG_OUT_X_L + 2)).val +
          256 * (s.regs (h.LIS3MDL_REG_OUT_X_L + 3)).val))
        (tableScale X) (read h d s).1.y_gauss (getEvent h d s millis).2.1.magnetic_y ∧
      CorrectlyRounded
        (s16 ((s.regs (h.LIS3MDL_REG_OUT_X_L + 4)).val +
          256 * (s.regs (h.LIS3MDL_REG_OUT_X_L + 5)).val))
        (tableScale X) (read h d s).1.z_gauss (getEvent h d s millis).2.1.magnetic_z) := by
  have hsc := scaleOf_code h hwf X
  have hread := read_ok h d s hs
  rw [hX, hsc] at hread
  have b0 := (s.regs (h.LIS3MDL_REG_OUT_X_L + 0)).isLt
  have b1 := (s.regs (h.LIS3MDL_REG_OUT_X_L + 1)).isLt
  have b2 := (s.regs (h.LIS3MDL_REG_OUT_X_L + 2)).isLt
  have b3 := (s.regs (h.LIS3MDL_REG_OUT_X_L + 3)).isLt
  have b4 := (s.regs (h.LIS3MDL_REG_OUT_X_L + 4)).isLt
  have b5 := (s.regs (h.LIS3MDL_REG_OUT_X_L + 5)).isLt
  have hbx := s16_bounds ((s.regs (h.LIS3MDL_REG_OUT_X_L + 0)).val +
    256 * (s.regs (h.LIS3MDL_REG_OUT_X_L + 1)).val) (by omega)
  have hby := s16_bounds ((s.regs (h.LIS3MDL_REG_OUT_X_L + 2)).val +
    256 * (s.regs (h.LIS3MDL_REG_OUT_X_L + 3)).val) (by omega)
  have hbz := s16_bounds ((s.regs (h.LIS3MDL_REG_OUT_X_L + 4)).val +
    256 * (s.regs (h.LIS3MDL_REG_OUT_X_L + 5)).val) (by omega)
  obtain ⟨hc1, hc2⟩ := tableScale_bounds X
  have hgx : (read h d s).1.x_gauss = _ := congrArg (fun r => r.1.x_gauss) hread
  have hgy : (read h d s).1.y_gauss = _ := congrArg (fun r => r.1.y_gauss) hread
  have hgz : (read h d s).1.z_gauss = _ := congrArg (fun r => r.1.z_gauss) hread
  have hlog : (read h d s).2.log = _ := congrArg (fun r => r.2.log) hread
  have hev : (getEvent h d s millis).1 = true ∧
      (getEvent h d s millis).2.2 = read h d s ∧
      (getEvent h d s millis).2.1.magnetic_x =
        float.mul (read h d s).1.x_gauss (float.ofInt 100) ∧
      (getEvent h d s millis).2.1.magnetic_y =
        float.mul (read h d s).1.y_gauss (float.ofInt 100) ∧
      (getEvent h d s millis).2.1.magnetic_z =
        float.mul (read h d s).1.z_gauss (float.ofInt 100) := by
    simp only [getEvent, and_self]
  refine ⟨hlog, ⟨hgx, hgy, hgz⟩, hev, ?_, ?_, ?_⟩
  · rw [hev.2.2.1, hgx]
    exact axis_correctlyRounded _ _ hbx.1 hbx.2 hc1 hc2
  · rw [hev.2.2.2.1, hgy]
    exact axis_correctlyRounded _ _ hby.1 hby.2 hc1 hc2
  · rw [hev.2.2.2.2, hgz]
    exact axis_correctlyRounded _ _ hbz.1 hbz.2 hc1 hc2

/-- Witness of the amended C2: raw sample (6842, 0, -6842) at range ±4 gauss
gives exactly gauss (1, 0, -1) and microtesla (100, 0, -100). -/
theorem read_scaling_correctly_rounded_witness :
    datasheet.WellFormed ∧ (idealBus sampleBurst).faults = [] ∧
    extractField ((idealBus sampleBurst).regs datasheet.LIS3MDL_REG_CTRL_REG2).val 2 5 =
      datasheet.range LIS3MDL_RANGE_4_GAUSS ∧
    ((read datasheet sampleDevice (idealBus sampleBurst)).1.x = 6842 ∧
      (read datasheet sampleDevice (idealBus sampleBurst)).1.y = 0 ∧
      (read datasheet sampleDevice (idealBus sampleBurst)).1.z = -6842) ∧
    (read datasheet sampleDevice (idealBus sampleBurst)).1.x_gauss =
      float.div (float.ofInt (s16 (0xBA + 256 * 0x1A)))
        (float.ofInt (tableScale LIS3MDL_RANGE_4_GAUSS)) ∧
    ((read datasheet sampleDevice (idealBus sampleBurst)).1.x_gauss.toRat = some 1 ∧
      (read datasheet sampleDevice (idealBus sampleBurst)).1.y_gauss.toRat = some 0 ∧
      (read datasheet sampleDevice (idealBus sampleBurst)).1.z_gauss.toRat = some (-1)) ∧
    ((getEvent datasheet sampleDevice (idealBus sampleBurst) 1000).2.1.magnetic_x.toRat =
        some 100 ∧
      (getEvent datasheet sampleDevice (idealBus sampleBurst) 1000).2.1.magnetic_y.toRat =
        some 0 ∧
      (getEvent datasheet sampleDevice (idealBus sampleBurst) 1000).2.1.magnetic_z.toRat =
        some (-100)) := by
  have t := read_scaling_correctly_rounded datasheet datasheet_wellFormed sampleDevice
    (idealBus sampleBurst) rfl LIS3MDL_RANGE_4_GAUSS 1000 (by decide)
  have gx : (read datasheet sampleDevice (idealBus sampleBurst)).1.x_gauss =
      float.finite false 8388608 (-23) := by decide
  have gy : (read datasheet sampleDevice (idealBus sampleBurst)).1.y_gauss =
      float.finite false 0 (-149) := by decide
  have gz : (read datasheet sampleDevice (idealBus sampleBurst)).1.z_gauss =
      float.finite true 8388608 (-23) := by decide
  have ux : (getEvent datasheet sampleDevice (idealBus sampleBurst) 1000).2.1.magnetic_x =
      float.finite false 13107200 (-17) := by decide
  have uy : (getEvent datasheet sampleDevice (idealBus sampleBurst) 1000).2.1.magnetic_y =
      float.finite false 0 (-149) := by decide
  have uz : (getEvent datasheet sampleDevice (idealBus sampleBurst) 1000).2.1.magnetic_z =
      float.finite true 13107200 (-17) := by decide
  refine ⟨datasheet_wellFormed, rfl, by decide, ⟨by decide, by decide, by decide⟩,
    t.2.1.1, ⟨?_, ?_, ?_⟩, ⟨?_, ?_, ?_⟩⟩
  · rw [gx]; norm_num [float.toRat]
  · rw [gy]; norm_num [float.toRat]
  · rw [gz]; norm_num [float.toRat]
  · rw [ux]; norm_num [float.toRat]
  · rw [uy]; norm_num [float.toRat]
  · rw [uz]; norm_num [float.toRat]

end LIS3MDL
